import Mathlib

/-!
# Lightning channel state machine (package `lightning`)

A shallow embedding of `pkg/lightning/channel.go` and `pkg/lightning/server.go`:
the `Channel` record, the funder-side operations `CreateChannel` and
`UpdateState`, and the responder-side handlers `OpenChannel`,
`GetUpdatedTransactions` and `GetRevocationKey`.

Modelling conventions.

* Go pointers to `Channel` are addresses into `LightningNode.Heap`; the map
  `ln.Channels` sends a peer to such an address, as `map[*peer.Peer]*Channel`
  does. `&Channel{...}` allocates at the end of the heap.
* Go maps are association lists with unique keys (`mapGet`, `mapSet`).
* A `[]byte` is a list of naturals; the nil slice is the empty list; the
  conversion `string(b)` of a byte slice is the identity on byte sequences.
* A call that returns `(resp, err)` yields a `Reply`: `ok resp` for
  `(resp, nil)`, `failed err` for `(nil, err)`, `empty` for `(nil, nil)` and
  `abort msg` for a run-time panic. Every operation also returns the node as it
  is at that point.
* The ledger, script, wallet, signature and transport packages are not part of
  the package; they are the fields of `Collaborators`.
* Fresh key material (`id.CreateSimpleID`) is an explicit argument.
-/

namespace Lightning

/-- Byte slices. -/
abbrev Bytes := List Nat

/-- Pointer identity of a `*peer.Peer`. -/
abbrev Peer := Nat

/-- Address of a `Channel` object in the heap of the node. -/
abbrev ChannelRef := Nat

/-! ## Go maps -/

/-- Lookup `m[x]` with the comma-ok result. -/
def mapGet {κ ν : Type} [DecidableEq κ] : List (κ × ν) → κ → Option ν
  | [], _ => none
  | (k, v) :: m, x => if k = x then some v else mapGet m x

/-- Assignment `m[x] = v`: replaces the entry of `x` or adds one. -/
def mapSet {κ ν : Type} [DecidableEq κ] : List (κ × ν) → κ → ν → List (κ × ν)
  | [], x, v => [(x, v)]
  | (k, w) :: m, x, v => if k = x then (x, v) :: m else (k, w) :: mapSet m x v

/-! ## Ledger data (package `block`, `pro`) -/

/-- Modelled from the spec: `block.TransactionOutput` is declared outside the
package; the package reads its `LockingScript` only, `Amount` stands for the
rest of the record. -/
structure TransactionOutput where
  Amount : Nat
  LockingScript : Bytes
deriving DecidableEq, Repr

/-- Modelled from the spec: `block.Transaction` is declared outside the
package; the package reads `Outputs` and appends to `Witnesses`, `Body` stands
for the remaining fields (version, inputs, lock time). -/
structure Transaction where
  Body : Bytes
  Outputs : List TransactionOutput
  Witnesses : List Bytes
deriving DecidableEq, Repr

/-- Modelled from the spec: the wire form `pro.Transaction` produced by
`block.EncodeTransaction` and read by `block.DecodeTransaction`; the package
never looks inside it. -/
structure ProTransaction where
  Body : Bytes
  Outputs : List TransactionOutput
  Witnesses : List Bytes
deriving DecidableEq, Repr

/-- Message `pro.OpenChannelRequest`. -/
structure OpenChannelRequest where
  Address : String
  PublicKey : Bytes
  FundingTransaction : ProTransaction
  RefundTransaction : ProTransaction
deriving DecidableEq, Repr

/-- Message `pro.OpenChannelResponse`. -/
structure OpenChannelResponse where
  PublicKey : Bytes
  SignedFundingTransaction : ProTransaction
  SignedRefundTransaction : ProTransaction
deriving DecidableEq, Repr

/-- Message `pro.TransactionWithAddress`. -/
structure TransactionWithAddress where
  Transaction : ProTransaction
  Address : String
deriving DecidableEq, Repr

/-- Message `pro.UpdatedTransactions`. -/
structure UpdatedTransactions where
  SignedTransaction : ProTransaction
  UnsignedTransaction : ProTransaction
deriving DecidableEq, Repr

/-- Message `pro.SignedTransactionWithKey`. -/
structure SignedTransactionWithKey where
  SignedTransaction : ProTransaction
  RevocationKey : Bytes
  Address : String
deriving DecidableEq, Repr

/-- Message `pro.RevocationKey`. -/
structure RevocationKey where
  Key : Bytes
deriving DecidableEq, Repr

/-- The wallet request built by `CreateChannel`. -/
structure WalletRequest where
  Amount : Nat
  Fee : Nat
  CounterPartyPubKey : Bytes
deriving DecidableEq, Repr

/-! ## Channel (channel.go) -/

/-- `RevocationInfo` of channel.go. -/
structure RevocationInfo where
  RevKey : Bytes
  TransactionOutput : TransactionOutput
  OutputIndex : Nat
  TransactionHash : String
  ScriptType : Int
deriving DecidableEq, Repr

/-- `Channel` of channel.go. `FundingTransaction` is a nullable pointer.
`State` is a Go `int` that starts at 0 and only moves by `State++`, each time
together with an append to a transaction slice, so it is a natural number
here. -/
structure Channel where
  Funder : Bool
  FundingTransaction : Option Transaction
  State : Nat
  CounterPartyPubKey : Bytes
  MyTransactions : List Transaction
  TheirTransactions : List Transaction
  MyRevocationKeys : List (String × Bytes)
  TheirRevocationKeys : List (Bytes × RevocationInfo)
deriving DecidableEq, Repr

/-- The result of `id.CreateSimpleID()`: a fresh key pair. -/
structure SimpleID where
  PublicKeyBytes : Bytes
  PrivateKeyBytes : Bytes
deriving DecidableEq, Repr

/-- `GenerateRevocationKey` of channel.go, given the identity that
`id.CreateSimpleID()` produced: the public key, then the private key. -/
def GenerateRevocationKey (i : SimpleID) : Bytes × Bytes :=
  (i.PublicKeyBytes, i.PrivateKeyBytes)

/-- Modelled from the spec: the `LightningNode` record is declared outside the
given files; these are the fields the two files use. `Heap` holds the
`Channel` objects that `Channels` points to, `PublicKey` is
`ln.Id.GetPublicKeyBytes()`, and `BroadcastTransaction` lists what was sent
on the channel of that name. -/
structure LightningNode where
  Address : String
  PublicKey : Bytes
  PeerDb : List (String × Peer)
  Channels : List (Peer × ChannelRef)
  Heap : List Channel
  BroadcastTransaction : List Transaction
deriving DecidableEq, Repr

/-- Outcome of a call with Go result `(resp, err)`, or of a call that
panics. -/
inductive Reply (α : Type) where
  | ok (resp : α)
  | failed (err : String)
  | empty
  | abort (msg : String)
deriving DecidableEq, Repr

/-- The functions of other packages that the two files call. Methods of the
node (`ValidateAndSign`, the `generate...` family) receive the node; they do
not write its channels. `ValidateAndSign` returns the transaction as it is
after signing in place. `Sign` is `utils.Sign` under the private key of the
node, the error dropped as in the source. The three `...RPC` fields are the
remote calls through `peer.Addr`. -/
structure Collaborators where
  Hash : Transaction → String
  EncodeTransaction : Transaction → ProTransaction
  DecodeTransaction : ProTransaction → Transaction
  DecodeTransactionWithAddress : TransactionWithAddress → Transaction
  DetermineScriptType : Bytes → Except String Int
  ValidateAndSign : LightningNode → Transaction → Except String Transaction
  generateTransactionWithCorrectScripts :
    LightningNode → Peer → Transaction → Bytes → Transaction
  generateFundingTransaction : LightningNode → WalletRequest → Transaction
  generateRefundTransaction :
    LightningNode → Bytes → Transaction → Nat → Bytes → Transaction
  Sign : LightningNode → String → Bytes
  OpenChannelRPC : Peer → OpenChannelRequest → Except String OpenChannelResponse
  GetUpdatedTransactionsRPC :
    Peer → TransactionWithAddress → Except String UpdatedTransactions
  GetRevocationKeyRPC :
    Peer → SignedTransactionWithKey → Except String RevocationKey

/-- Write through a `*Channel`: the object at address `r` becomes `c`. -/
def LightningNode.store (ln : LightningNode) (r : ChannelRef) (c : Channel) :
    LightningNode :=
  { ln with Heap := ln.Heap.set r c }

/-- The channel `ln.Channels[peer]` points to, when there is one. -/
def LightningNode.channelOf (ln : LightningNode) (p : Peer) : Option Channel :=
  match mapGet ln.Channels p with
  | none => none
  | some r => ln.Heap[r]?

/-- The index of the counterparty coin: 1 for the funder, 0 otherwise. -/
def coinIndex (c : Channel) : Nat := if c.Funder then 1 else 0

/-! ## Funder side (channel.go) -/

/-- `CreateChannel` of channel.go. `amount` and `fee` are `uint32`; the
product `fee * 2` is taken modulo `2 ^ 32`. The send on
`ln.BroadcastTransaction` in the goroutine is an append to that list. -/
def CreateChannel (env : Collaborators) (fresh : SimpleID) (ln : LightningNode)
    (peer : Peer) (theirPubKey : Bytes) (amount fee : Nat) :
    LightningNode × Reply Unit :=
  let channel : Channel :=
    { Funder := true
      FundingTransaction := none
      State := 0
      CounterPartyPubKey := theirPubKey
      MyTransactions := []
      TheirTransactions := []
      MyRevocationKeys := []
      TheirRevocationKeys := [] }
  let r : ChannelRef := ln.Heap.length
  let ln1 : LightningNode :=
    { ln with Channels := mapSet ln.Channels peer r, Heap := ln.Heap ++ [channel] }
  let walletRequest : WalletRequest :=
    { Amount := amount, Fee := (fee * 2) % 2 ^ 32, CounterPartyPubKey := theirPubKey }
  let fundingTx := env.generateFundingTransaction ln1 walletRequest
  let pubK := (GenerateRevocationKey fresh).1
  let priK := (GenerateRevocationKey fresh).2
  let refundTx := env.generateRefundTransaction ln1 theirPubKey fundingTx fee pubK
  let channel1 : Channel :=
    { channel with
      MyRevocationKeys := mapSet channel.MyRevocationKeys (env.Hash refundTx) priK }
  let ln2 := ln1.store r channel1
  let request : OpenChannelRequest :=
    { Address := ln2.Address
      PublicKey := ln2.PublicKey
      FundingTransaction := env.EncodeTransaction fundingTx
      RefundTransaction := env.EncodeTransaction refundTx }
  match env.OpenChannelRPC peer request with
  | .error _ => (ln2, .abort "OpenChannelRPC error")
  | .ok resp =>
    let newFundingTx := env.DecodeTransaction resp.SignedFundingTransaction
    let newRefundTx := env.DecodeTransaction resp.SignedRefundTransaction
    let channel2 : Channel :=
      { channel1 with
        FundingTransaction := some newFundingTx
        MyTransactions := channel1.MyTransactions ++ [newRefundTx]
        TheirTransactions := channel1.TheirTransactions ++ [newRefundTx] }
    let ln3 := ln2.store r channel2
    let sig := env.Sign ln3 (env.Hash fundingTx)
    let fundingTx1 : Transaction :=
      { fundingTx with Witnesses := fundingTx.Witnesses ++ [sig] }
    ({ ln3 with BroadcastTransaction := ln3.BroadcastTransaction ++ [fundingTx1] },
      .ok ())

/-- `UpdateState` of channel.go. The function has no result: it returns
(`ok ()`) or panics (`abort`). -/
def UpdateState (env : Collaborators) (ln : LightningNode) (peer : Peer)
    (tx : Transaction) : LightningNode × Reply Unit :=
  let request : TransactionWithAddress :=
    { Transaction := env.EncodeTransaction tx, Address := ln.Address }
  match env.GetUpdatedTransactionsRPC peer request with
  | .error _ => (ln, .abort "GetUpdatedTransactionsRPC error")
  | .ok updateTx =>
    let signedTx := env.DecodeTransaction updateTx.SignedTransaction
    let unsignedTx := env.DecodeTransaction updateTx.UnsignedTransaction
    match mapGet ln.Channels peer with
    | none => (ln, .abort "GetUpdatedTransactionsRPC error")
    | some r =>
      match ln.Heap[r]? with
      | none => (ln, .abort "invalid memory address or nil pointer dereference")
      | some channel =>
        let channel1 : Channel :=
          { channel with MyTransactions := channel.MyTransactions ++ [signedTx] }
        let ln1 := ln.store r channel1
        let sig := env.Sign ln1 (env.Hash unsignedTx)
        let unsignedTx1 : Transaction :=
          { unsignedTx with Witnesses := unsignedTx.Witnesses ++ [sig] }
        let channel2 : Channel :=
          { channel1 with
            TheirTransactions := channel1.TheirTransactions ++ [unsignedTx1] }
        let ln2 := ln1.store r channel2
        let pubK := (mapGet channel2.MyRevocationKeys (env.Hash signedTx)).getD []
        let revRequest : SignedTransactionWithKey :=
          { SignedTransaction := env.EncodeTransaction unsignedTx1
            RevocationKey := pubK
            Address := ln2.Address }
        match env.GetRevocationKeyRPC peer revRequest with
        | .error _ => (ln2, .abort "GetUpdatedTransactionsRPC error")
        | .ok revKey =>
          let theirRevKey := revKey.Key
          let channel3 : Channel := { channel2 with State := channel2.State + 1 }
          let ln3 := ln2.store r channel3
          match unsignedTx1.Outputs[0]? with
          | none => (ln3, .abort "index out of range")
          | some out0 =>
            match env.DetermineScriptType out0.LockingScript with
            | .error _ => (ln3, .abort "GetUpdatedTransactionsRPC error")
            | .ok scriptType =>
              let index := coinIndex channel3
              match unsignedTx1.Outputs[index]? with
              | none => (ln3, .abort "index out of range")
              | some out =>
                let revocationInfo : RevocationInfo :=
                  { RevKey := theirRevKey
                    TransactionOutput := out
                    OutputIndex := index
                    TransactionHash := env.Hash unsignedTx1
                    ScriptType := scriptType }
                let channel4 : Channel :=
                  { channel3 with
                    TheirRevocationKeys :=
                      mapSet channel3.TheirRevocationKeys theirRevKey revocationInfo }
                (ln3.store r channel4, .ok ())

/-! ## Responder side (server.go) -/

/-- `OpenChannel` of server.go. -/
def OpenChannel (env : Collaborators) (fresh : SimpleID) (ln : LightningNode)
    (req : OpenChannelRequest) : LightningNode × Reply OpenChannelResponse :=
  match mapGet ln.PeerDb req.Address with
  | none => (ln, .empty)
  | some peer =>
    match mapGet ln.Channels peer with
    | some _ => (ln, .empty)
    | none =>
      match env.ValidateAndSign ln (env.DecodeTransaction req.FundingTransaction) with
      | .error err => (ln, .failed err)
      | .ok fundingTransaction =>
        match env.ValidateAndSign ln (env.DecodeTransaction req.RefundTransaction) with
        | .error err => (ln, .failed err)
        | .ok refundTransaction =>
          let channel : Channel :=
            { Funder := false
              FundingTransaction := some fundingTransaction
              State := 0
              CounterPartyPubKey := req.PublicKey
              MyTransactions := []
              TheirTransactions := []
              MyRevocationKeys := []
              TheirRevocationKeys := [] }
          let channel1 : Channel :=
            { channel with
              MyTransactions := channel.MyTransactions ++ [refundTransaction]
              TheirTransactions := channel.TheirTransactions ++ [refundTransaction] }
          let priK := (GenerateRevocationKey fresh).2
          let channel2 : Channel :=
            { channel1 with
              MyRevocationKeys :=
                mapSet channel1.MyRevocationKeys (env.Hash refundTransaction) priK }
          let ln1 : LightningNode :=
            { ln with
              Channels := mapSet ln.Channels peer ln.Heap.length
              Heap := ln.Heap ++ [channel2] }
          let resp : OpenChannelResponse :=
            { PublicKey := ln1.PublicKey
              SignedFundingTransaction := env.EncodeTransaction fundingTransaction
              SignedRefundTransaction := env.EncodeTransaction refundTransaction }
          (ln1, .ok resp)

/-- `GetUpdatedTransactions` of server.go. -/
def GetUpdatedTransactions (env : Collaborators) (fresh : SimpleID)
    (ln : LightningNode) (req : TransactionWithAddress) :
    LightningNode × Reply UpdatedTransactions :=
  let tx := env.DecodeTransactionWithAddress req
  match mapGet ln.PeerDb req.Address with
  | none => (ln, .empty)
  | some peer =>
    match mapGet ln.Channels peer with
    | none => (ln, .failed "do not have the channel")
    | some r =>
      match env.ValidateAndSign ln tx with
      | .error err => (ln, .failed err)
      | .ok tx1 =>
        let pubK := (GenerateRevocationKey fresh).1
        let priK := (GenerateRevocationKey fresh).2
        let myVersionTx := env.generateTransactionWithCorrectScripts ln peer tx1 pubK
        match ln.Heap[r]? with
        | none => (ln, .abort "invalid memory address or nil pointer dereference")
        | some channel =>
          let channel1 : Channel :=
            { channel with TheirTransactions := channel.TheirTransactions ++ [tx1] }
          let channel2 : Channel :=
            { channel1 with
              MyRevocationKeys :=
                mapSet channel1.MyRevocationKeys (env.Hash myVersionTx) priK }
          let resp : UpdatedTransactions :=
            { SignedTransaction := env.EncodeTransaction tx1
              UnsignedTransaction := env.EncodeTransaction myVersionTx }
          (ln.store r channel2, .ok resp)

/-- `GetRevocationKey` of server.go. -/
def GetRevocationKey (env : Collaborators) (ln : LightningNode)
    (req : SignedTransactionWithKey) : LightningNode × Reply RevocationKey :=
  match mapGet ln.PeerDb req.Address with
  | none => (ln, .empty)
  | some peer =>
    match mapGet ln.Channels peer with
    | none => (ln, .failed "do not have the channel")
    | some r =>
      let signedTransaction := env.DecodeTransaction req.SignedTransaction
      match ln.Heap[r]? with
      | none => (ln, .abort "invalid memory address or nil pointer dereference")
      | some channel =>
        let channel1 : Channel :=
          { channel with
            MyTransactions := channel.MyTransactions ++ [signedTransaction] }
        let ln1 := ln.store r channel1
        match signedTransaction.Outputs[0]? with
        | none => (ln1, .abort "index out of range")
        | some out0 =>
          match env.DetermineScriptType out0.LockingScript with
          | .error err => (ln1, .failed err)
          | .ok scriptType =>
            let index := coinIndex channel1
            match signedTransaction.Outputs[index]? with
            | none => (ln1, .abort "index out of range")
            | some out =>
              let revocationInfo : RevocationInfo :=
                { RevKey := req.RevocationKey
                  TransactionOutput := out
                  OutputIndex := index
                  TransactionHash := env.Hash signedTransaction
                  ScriptType := scriptType }
              let channel2 : Channel :=
                { channel1 with
                  TheirRevocationKeys :=
                    mapSet channel1.TheirRevocationKeys req.RevocationKey
                      revocationInfo }
              let channel3 : Channel := { channel2 with State := channel2.State + 1 }
              let pk :=
                (mapGet channel3.MyRevocationKeys (env.Hash signedTransaction)).getD []
              (ln1.store r channel3, .ok { Key := pk })

/-! ## Predicates of the specification -/

/-- The length invariant of the specification:
`len(MyTransactions) = len(TheirTransactions) = State + 1`. -/
def LengthInvariant (c : Channel) : Prop :=
  c.MyTransactions.length = c.State + 1 ∧ c.TheirTransactions.length = c.State + 1

instance (c : Channel) : Decidable (LengthInvariant c) :=
  inferInstanceAs (Decidable (_ ∧ _))

/-- The shape of a channel between the two responder steps of a round: the
proposed transaction is in `TheirTransactions`, the round is not closed. -/
def MidRound (c : Channel) : Prop :=
  c.MyTransactions.length = c.State + 1 ∧ c.TheirTransactions.length = c.State + 2

instance (c : Channel) : Decidable (MidRound c) :=
  inferInstanceAs (Decidable (_ ∧ _))

/-- The optional channel is present and satisfies `P`. -/
def onChannel (P : Channel → Prop) : Option Channel → Prop
  | none => False
  | some c => P c

instance (P : Channel → Prop) [DecidablePred P] (o : Option Channel) :
    Decidable (onChannel P o) := by
  cases o
  · exact inferInstanceAs (Decidable False)
  · exact inferInstanceAs (Decidable (P _))

/-- The channel is at state `n` with `n + 1` transactions on each side. -/
def AtRound (n : Nat) (c : Channel) : Prop :=
  c.State = n ∧ c.MyTransactions.length = n + 1 ∧ c.TheirTransactions.length = n + 1

instance (n : Nat) (c : Channel) : Decidable (AtRound n c) :=
  inferInstanceAs (Decidable (_ ∧ _ ∧ _))

/-- The channel has the funder flag of `c`. -/
def SameFunder (c d : Channel) : Prop := d.Funder = c.Funder

instance (c d : Channel) : Decidable (SameFunder c d) :=
  inferInstanceAs (Decidable (_ = _))

/-- The state of the object went from that of `c` to the same or one more,
and the object is still there. -/
def StateStep (c : Channel) : Option Channel → Prop
  | none => False
  | some d => c.State ≤ d.State ∧ d.State ≤ c.State + 1

instance (c : Channel) (o : Option Channel) : Decidable (StateStep c o) := by
  cases o
  · exact inferInstanceAs (Decidable False)
  · exact inferInstanceAs (Decidable (_ ∧ _))

/-- Index symmetry: every stored `RevocationInfo` points at output 1 for a
funder and at output 0 otherwise. -/
def IndexSymmetric (c : Channel) : Prop :=
  ∀ e ∈ c.TheirRevocationKeys, e.2.OutputIndex = if c.Funder then 1 else 0

instance (c : Channel) : Decidable (IndexSymmetric c) :=
  inferInstanceAs (Decidable (∀ e ∈ c.TheirRevocationKeys, _))

/-- One call of an operation of the package, with any arguments, any
collaborators and any outcome. The handler `Version` of server.go writes the
peer directory only (`ln.PeerDb.Add`); its step puts any directory in
place. -/
inductive Step : LightningNode → LightningNode → Prop where
  | createChannel (env : Collaborators) (fresh : SimpleID) (ln : LightningNode)
      (peer : Peer) (theirPubKey : Bytes) (amount fee : Nat) :
      Step ln (CreateChannel env fresh ln peer theirPubKey amount fee).1
  | openChannel (env : Collaborators) (fresh : SimpleID) (ln : LightningNode)
      (req : OpenChannelRequest) : Step ln (OpenChannel env fresh ln req).1
  | updateState (env : Collaborators) (ln : LightningNode) (peer : Peer)
      (tx : Transaction) : Step ln (UpdateState env ln peer tx).1
  | getUpdatedTransactions (env : Collaborators) (fresh : SimpleID)
      (ln : LightningNode) (req : TransactionWithAddress) :
      Step ln (GetUpdatedTransactions env fresh ln req).1
  | getRevocationKey (env : Collaborators) (ln : LightningNode)
      (req : SignedTransactionWithKey) : Step ln (GetRevocationKey env ln req).1
  | version (ln : LightningNode) (db : List (String × Peer)) :
      Step ln { ln with PeerDb := db }

/-- Nodes reachable from a node without channels by calls of the package. -/
inductive Reachable : LightningNode → Prop where
  | init (ln : LightningNode) (hc : ln.Channels = []) (hh : ln.Heap = []) :
      Reachable ln
  | step {ln ln2 : LightningNode} (h : Reachable ln) (s : Step ln ln2) :
      Reachable ln2

/-- What every call keeps of a channel object: the funder flag, a state that
is the same or one more, and index symmetry. -/
def ChannelEvolves (c d : Channel) : Prop :=
  d.Funder = c.Funder ∧ c.State ≤ d.State ∧ d.State ≤ c.State + 1 ∧
    (IndexSymmetric c → IndexSymmetric d)

/-- The heap after a call: every object that was there is still there and
evolved, and every new object is index symmetric. -/
def NodeEvolves (ln ln2 : LightningNode) : Prop :=
  (∀ (r : ChannelRef) (c : Channel),
      ln.Heap[r]? = some c → ∃ d, ln2.Heap[r]? = some d ∧ ChannelEvolves c d) ∧
    (∀ (r : ChannelRef) (d : Channel),
      ln2.Heap[r]? = some d → ln.Heap[r]? = none → IndexSymmetric d)

/-! ## A concrete ledger for evaluation -/

/-- A hash that reads the body and the outputs of a transaction, not its
witnesses. -/
def demoHash (t : Transaction) : String :=
  String.mk
    ((t.Body ++ t.Outputs.map (fun o => o.Amount)).map
      (fun n => Char.ofNat (97 + n % 26)))

/-- Script classes: 0 for pay-to-public-key `[0]`, 1 for the revocable
script `[1]`; other scripts are not classified. -/
def demoScriptType (script : Bytes) : Except String Int :=
  if script = [0] then .ok 0
  else if script = [1] then .ok 1
  else .error "could not determine script type"

/-- Validation that rejects a transaction without outputs and signs the
others with the witness `[9]`. -/
def demoValidateAndSign (t : Transaction) : Except String Transaction :=
  if t.Outputs = [] then .error "invalid transaction"
  else .ok { t with Witnesses := t.Witnesses ++ [[9]] }

/-- The mirrored transaction: the script of the first output is made
revocable under the public key. -/
def demoMirror (t : Transaction) (pubK : Bytes) : Transaction :=
  { Body := t.Body ++ pubK
    Outputs :=
      match t.Outputs with
      | [] => []
      | o :: os => { o with LockingScript := [1] } :: os
    Witnesses := [] }

/-- Collaborators of the concrete ledger. The remote peer of `UpdateState`
answers with the proposed transaction countersigned and its mirror, and
reveals the key `[5]`. -/
def demoEnv : Collaborators where
  Hash := demoHash
  EncodeTransaction t := { Body := t.Body, Outputs := t.Outputs, Witnesses := t.Witnesses }
  DecodeTransaction w := { Body := w.Body, Outputs := w.Outputs, Witnesses := w.Witnesses }
  DecodeTransactionWithAddress req :=
    { Body := req.Transaction.Body
      Outputs := req.Transaction.Outputs
      Witnesses := req.Transaction.Witnesses }
  DetermineScriptType := demoScriptType
  ValidateAndSign _ t := demoValidateAndSign t
  generateTransactionWithCorrectScripts _ _ t pubK := demoMirror t pubK
  generateFundingTransaction _ w :=
    { Body := [w.Amount % 26], Outputs := [{ Amount := w.Amount + w.Fee, LockingScript := [0] }],
      Witnesses := [] }
  generateRefundTransaction _ _ f fee pubK :=
    { Body := f.Body ++ pubK, Outputs := [{ Amount := fee, LockingScript := [1] }],
      Witnesses := [] }
  Sign _ _ := [8]
  OpenChannelRPC _ req :=
    .ok { PublicKey := [3]
          SignedFundingTransaction :=
            { req.FundingTransaction with
              Witnesses := req.FundingTransaction.Witnesses ++ [[9]] }
          SignedRefundTransaction :=
            { req.RefundTransaction with
              Witnesses := req.RefundTransaction.Witnesses ++ [[9]] } }
  GetUpdatedTransactionsRPC _ req :=
    .ok { SignedTransaction :=
            { req.Transaction with Witnesses := req.Transaction.Witnesses ++ [[9]] }
          UnsignedTransaction :=
            { Body := req.Transaction.Body ++ [4]
              Outputs := req.Transaction.Outputs
              Witnesses := [] } }
  GetRevocationKeyRPC _ _ := .ok { Key := [5] }

/-- A refund transaction with two outputs, the state-0 transaction of the
demonstration channels. -/
def demoRefund : Transaction :=
  { Body := [0]
    Outputs := [{ Amount := 1, LockingScript := [0] }, { Amount := 2, LockingScript := [1] }]
    Witnesses := [[9]] }

/-- A channel at state 0 that satisfies the length invariant. -/
def demoChannel (funder : Bool) : Channel :=
  { Funder := funder
    FundingTransaction := some { Body := [7], Outputs := [], Witnesses := [[9]] }
    State := 0
    CounterPartyPubKey := [3]
    MyTransactions := [demoRefund]
    TheirTransactions := [demoRefund]
    MyRevocationKeys := [(demoHash demoRefund, [41])]
    TheirRevocationKeys := [] }

/-- A node that knows the peers 7 (address "bob") and 8 (address "carol")
and holds a channel with peer 7. -/
def demoNode (funder : Bool) : LightningNode :=
  { Address := "alice"
    PublicKey := [2]
    PeerDb := [("bob", 7), ("carol", 8)]
    Channels := [(7, 0)]
    Heap := [demoChannel funder]
    BroadcastTransaction := [] }

/-- The update proposed in the demonstrations. -/
def demoUpdate : ProTransaction :=
  { Body := [1]
    Outputs := [{ Amount := 3, LockingScript := [0] }, { Amount := 4, LockingScript := [1] }]
    Witnesses := [] }

/-- Fresh key material of the demonstrations. -/
def demoID : SimpleID := { PublicKeyBytes := [6], PrivateKeyBytes := [42] }

/-- Key material of an earlier call. -/
def demoID0 : SimpleID := { PublicKeyBytes := [10], PrivateKeyBytes := [41] }

/-- A node that knows the peers 7 and 8 and holds no channel. -/
def demoEmpty : LightningNode :=
  { Address := "alice"
    PublicKey := [2]
    PeerDb := [("bob", 7), ("carol", 8)]
    Channels := []
    Heap := []
    BroadcastTransaction := [] }

/-- An update proposal from peer 7. -/
def demoProposal : TransactionWithAddress :=
  { Transaction := demoUpdate, Address := "bob" }

/-- The mirrored transaction of `demoProposal`, signed by peer 7, as it comes
back with the key `[5]` in the second step of the round. -/
def demoReveal : SignedTransactionWithKey :=
  { SignedTransaction :=
      { Body := [1, 6]
        Outputs := [{ Amount := 3, LockingScript := [1] }, { Amount := 4, LockingScript := [1] }]
        Witnesses := [[8]] }
    RevocationKey := [5]
    Address := "bob" }

/-- An open request from peer 8, which has no channel in `demoNode`. -/
def demoOpen : OpenChannelRequest :=
  { Address := "carol"
    PublicKey := [3]
    FundingTransaction :=
      { Body := [7], Outputs := [{ Amount := 12, LockingScript := [0] }], Witnesses := [] }
    RefundTransaction :=
      { Body := [0], Outputs := [{ Amount := 1, LockingScript := [1] }], Witnesses := [] } }

/-- An open request from peer 7, which has a channel in `demoNode`. -/
def demoOpenAgain : OpenChannelRequest := { demoOpen with Address := "bob" }

/-- The node `demoEmpty` after peer 8 opened a channel and one update round
with that peer was served. -/
def demoServed : LightningNode :=
  (GetRevocationKey demoEnv
    (GetUpdatedTransactions demoEnv demoID
      (OpenChannel demoEnv demoID0 demoEmpty demoOpen).1
      { demoProposal with Address := "carol" }).1
    { demoReveal with Address := "carol" }).1

/-- The channel object of `demoServed`. -/
def demoServedChannel : Channel := (demoServed.Heap[0]?).getD (demoChannel false)

/-- A channel at state 0 that satisfies the length invariant and holds, next
to the key of its state-0 transaction, the key `[42]` issued for the mirrored
transaction of `demoReveal`. -/
def demoPendingChannel : Channel :=
  { demoChannel false with
    MyRevocationKeys :=
      [(demoHash demoRefund, [41]),
        (demoHash
          { Body := demoReveal.SignedTransaction.Body
            Outputs := demoReveal.SignedTransaction.Outputs
            Witnesses := demoReveal.SignedTransaction.Witnesses }, [42])] }

/-- The node `demoNode` with `demoPendingChannel` as the channel of peer 7. -/
def demoPending : LightningNode := { demoNode false with Heap := [demoPendingChannel] }

/-- A reveal request from peer 7 whose transaction has a first output that
the script package does not classify. -/
def demoBadReveal : SignedTransactionWithKey :=
  { demoReveal with
    SignedTransaction :=
      { Body := [1, 6]
        Outputs := [{ Amount := 3, LockingScript := [2] }, { Amount := 4, LockingScript := [1] }]
        Witnesses := [[8]] } }

/-- A reveal request from peer 7 whose transaction pays to a public key in its
first output and has the revocable script in its second output. -/
def demoMixedReveal : SignedTransactionWithKey :=
  { demoReveal with
    SignedTransaction :=
      { Body := [1, 6]
        Outputs := [{ Amount := 3, LockingScript := [0] }, { Amount := 4, LockingScript := [1] }]
        Witnesses := [[8]] } }

/-- The open request is one that `OpenChannel` turns down before validation:
the address is not that of a known peer, or the peer has a channel. -/
def OpenRejected (ln : LightningNode) (req : OpenChannelRequest) : Prop :=
  match mapGet ln.PeerDb req.Address with
  | none => True
  | some peer => (mapGet ln.Channels peer).isSome = true

instance (ln : LightningNode) (req : OpenChannelRequest) :
    Decidable (OpenRejected ln req) := by
  unfold OpenRejected
  split
  · exact inferInstanceAs (Decidable True)
  · exact inferInstanceAs (Decidable (_ = _))

/-- A reveal request from peer 7 whose transaction has no output. -/
def demoNoOutput : SignedTransactionWithKey :=
  { demoReveal with
    SignedTransaction := { Body := [1, 6], Outputs := [], Witnesses := [[8]] } }

/-- A reveal request from peer 7 whose transaction has one output. -/
def demoOneOutput : SignedTransactionWithKey :=
  { demoReveal with
    SignedTransaction :=
      { Body := [1, 6], Outputs := [{ Amount := 3, LockingScript := [1] }],
        Witnesses := [[8]] } }

/-- The node `demoNode` between the two responder steps of a round: the
proposal of peer 7 has been accepted by `GetUpdatedTransactions`. -/
def demoMidRound : LightningNode :=
  (GetUpdatedTransactions demoEnv demoID (demoNode false) demoProposal).1

/-- The channel object of `demoMidRound`. -/
def demoMidRoundChannel : Channel := (demoMidRound.Heap[0]?).getD (demoChannel false)

/-! ## Frames of a call -/

/-- Every channel object of `ln` is still an object of `ln2`, related to its
old value by `P`. -/
def HeapRel (P : Channel → Channel → Prop) (ln ln2 : LightningNode) : Prop :=
  ∀ (r : ChannelRef) (c : Channel),
    ln.Heap[r]? = some c → ∃ d, ln2.Heap[r]? = some d ∧ P c d

/-- Every channel object of `ln2` that `ln` does not have satisfies `Q`. -/
def NewObjects (Q : Channel → Prop) (ln ln2 : LightningNode) : Prop :=
  ∀ (r : ChannelRef) (d : Channel), ln2.Heap[r]? = some d → ln.Heap[r]? = none → Q d

/-- What a call leaves of a channel object: the funding transaction, and the
keys in `MyRevocationKeys` up to one assignment of the key `issued`, when the
call issues one. -/
def Frame (issued : Option Bytes) (c d : Channel) : Prop :=
  d.FundingTransaction = c.FundingTransaction ∧
    (d.MyRevocationKeys = c.MyRevocationKeys ∨
      ∃ h k, issued = some k ∧ d.MyRevocationKeys = mapSet c.MyRevocationKeys h k)

/-- Registry consistency under the hash function `H`: every entry of
`TheirRevocationKeys` is stored under its own `RevKey`, and one of the
transactions of the channel has the hash `TransactionHash` and has
`TransactionOutput` as its output at position `OutputIndex`. -/
def RegistryConsistent (H : Transaction → String) (c : Channel) : Prop :=
  ∀ e ∈ c.TheirRevocationKeys,
    e.1 = e.2.RevKey ∧
    ∃ t ∈ c.MyTransactions ++ c.TheirTransactions,
      H t = e.2.TransactionHash ∧ t.Outputs[e.2.OutputIndex]? = some e.2.TransactionOutput

instance (H : Transaction → String) (c : Channel) : Decidable (RegistryConsistent H c) :=
  inferInstanceAs (Decidable (∀ e ∈ c.TheirRevocationKeys, _))

/-- One call of an operation of the package whose collaborators hash with
`H`, or one change of the peer directory. -/
inductive StepUnder (H : Transaction → String) : LightningNode → LightningNode → Prop where
  | createChannel (env : Collaborators) (henv : env.Hash = H) (fresh : SimpleID)
      (ln : LightningNode) (peer : Peer) (theirPubKey : Bytes) (amount fee : Nat) :
      StepUnder H ln (CreateChannel env fresh ln peer theirPubKey amount fee).1
  | openChannel (env : Collaborators) (henv : env.Hash = H) (fresh : SimpleID)
      (ln : LightningNode) (req : OpenChannelRequest) :
      StepUnder H ln (OpenChannel env fresh ln req).1
  | updateState (env : Collaborators) (henv : env.Hash = H) (ln : LightningNode)
      (peer : Peer) (tx : Transaction) : StepUnder H ln (UpdateState env ln peer tx).1
  | getUpdatedTransactions (env : Collaborators) (henv : env.Hash = H) (fresh : SimpleID)
      (ln : LightningNode) (req : TransactionWithAddress) :
      StepUnder H ln (GetUpdatedTransactions env fresh ln req).1
  | getRevocationKey (env : Collaborators) (henv : env.Hash = H) (ln : LightningNode)
      (req : SignedTransactionWithKey) : StepUnder H ln (GetRevocationKey env ln req).1
  | version (ln : LightningNode) (db : List (String × Peer)) :
      StepUnder H ln { ln with PeerDb := db }

/-- Nodes reachable from a node without channels by calls of the package
whose collaborators hash with `H`. -/
inductive ReachableUnder (H : Transaction → String) : LightningNode → Prop where
  | init (ln : LightningNode) (hc : ln.Channels = []) (hh : ln.Heap = []) :
      ReachableUnder H ln
  | step {ln ln2 : LightningNode} (h : ReachableUnder H ln) (s : StepUnder H ln ln2) :
      ReachableUnder H ln2

/-- The channel has `f` as its funding transaction. -/
def FundedBy (f : Transaction) (c : Channel) : Prop := c.FundingTransaction = some f

instance (f : Transaction) (c : Channel) : Decidable (FundedBy f c) :=
  inferInstanceAs (Decidable (_ = _))

/-- Modelled from the spec: the transport behind `peer.Addr.…RPC` is outside
the package. The caller of a remote call gets the response of the handler, or
an error: the error of the handler, or a transport failure when the handler
returns nil with nil or aborts. -/
def rpcResult {α : Type} : Reply α → Except String α
  | .ok resp => .ok resp
  | .failed err => .error err
  | .empty => .error "transport failure"
  | .abort msg => .error msg

/-- `UpdateState` of channel.go on the node `ln`, with the two remote calls
served by the handlers `GetUpdatedTransactions` and `GetRevocationKey` of the
node `lnR` (collaborators `envR`, fresh key material `freshR`). The result is
the initiator node, the responder node and the outcome for the initiator. -/
def UpdateStateServed (env envR : Collaborators) (freshR : SimpleID)
    (ln lnR : LightningNode) (peer : Peer) (tx : Transaction) :
    (LightningNode × LightningNode) × Reply Unit :=
  let request : TransactionWithAddress :=
    { Transaction := env.EncodeTransaction tx, Address := ln.Address }
  let served1 := GetUpdatedTransactions envR freshR lnR request
  match rpcResult served1.2 with
  | .error _ => ((ln, served1.1), .abort "GetUpdatedTransactionsRPC error")
  | .ok updateTx =>
    let signedTx := env.DecodeTransaction updateTx.SignedTransaction
    let unsignedTx := env.DecodeTransaction updateTx.UnsignedTransaction
    match mapGet ln.Channels peer with
    | none => ((ln, served1.1), .abort "GetUpdatedTransactionsRPC error")
    | some r =>
      match ln.Heap[r]? with
      | none => ((ln, served1.1), .abort "invalid memory address or nil pointer dereference")
      | some channel =>
        let channel1 : Channel :=
          { channel with MyTransactions := channel.MyTransactions ++ [signedTx] }
        let ln1 := ln.store r channel1
        let sig := env.Sign ln1 (env.Hash unsignedTx)
        let unsignedTx1 : Transaction :=
          { unsignedTx with Witnesses := unsignedTx.Witnesses ++ [sig] }
        let channel2 : Channel :=
          { channel1 with
            TheirTransactions := channel1.TheirTransactions ++ [unsignedTx1] }
        let ln2 := ln1.store r channel2
        let pubK := (mapGet channel2.MyRevocationKeys (env.Hash signedTx)).getD []
        let revRequest : SignedTransactionWithKey :=
          { SignedTransaction := env.EncodeTransaction unsignedTx1
            RevocationKey := pubK
            Address := ln2.Address }
        let served2 := GetRevocationKey envR served1.1 revRequest
        match rpcResult served2.2 with
        | .error _ => ((ln2, served2.1), .abort "GetUpdatedTransactionsRPC error")
        | .ok revKey =>
          let theirRevKey := revKey.Key
          let channel3 : Channel := { channel2 with State := channel2.State + 1 }
          let ln3 := ln2.store r channel3
          match unsignedTx1.Outputs[0]? with
          | none => ((ln3, served2.1), .abort "index out of range")
          | some out0 =>
            match env.DetermineScriptType out0.LockingScript with
            | .error _ => ((ln3, served2.1), .abort "GetUpdatedTransactionsRPC error")
            | .ok scriptType =>
              let index := coinIndex channel3
              match unsignedTx1.Outputs[index]? with
              | none => ((ln3, served2.1), .abort "index out of range")
              | some out =>
                let revocationInfo : RevocationInfo :=
                  { RevKey := theirRevKey
                    TransactionOutput := out
                    OutputIndex := index
                    TransactionHash := env.Hash unsignedTx1
                    ScriptType := scriptType }
                let channel4 : Channel :=
                  { channel3 with
                    TheirRevocationKeys :=
                      mapSet channel3.TheirRevocationKeys theirRevKey revocationInfo }
                ((ln3.store r channel4, served2.1), .ok ())

/-- The collaborators of the initiator when its two remote calls are served
by the handlers of the node `lnR`, the second call on the node as the first
call, made with the request `first`, left it. -/
def servedBy (env envR : Collaborators) (freshR : SimpleID) (lnR : LightningNode)
    (first : TransactionWithAddress) : Collaborators :=
  { env with
    GetUpdatedTransactionsRPC := fun _ req =>
      rpcResult (GetUpdatedTransactions envR freshR lnR req).2
    GetRevocationKeyRPC := fun _ req =>
      rpcResult
        (GetRevocationKey envR (GetUpdatedTransactions envR freshR lnR first).1 req).2 }

/-- The transactions of a channel at `State = 1` whose hashes its
`RevocationInfo`s carry are the ones at index 1 of the history `hist`. -/
def RevokesIndexOne (H : Transaction → String) (hist : Channel → List Transaction)
    (d : Channel) : Prop :=
  d.State = 1 ∧ (hist d).length = 2 ∧
    d.TheirRevocationKeys.map (fun e => some e.2.TransactionHash)
      = [((hist d)[1]?).map H]

instance (H : Transaction → String) (hist : Channel → List Transaction) (d : Channel) :
    Decidable (RevokesIndexOne H hist d) :=
  inferInstanceAs (Decidable (_ ∧ _ ∧ _))

/-- The channel is as it is after the opening: `State = 0`, one transaction
in each history, no revealed key. -/
def JustOpened (c : Channel) : Prop :=
  c.State = 0 ∧ c.MyTransactions.length = 1 ∧ c.TheirTransactions.length = 1 ∧
    c.TheirRevocationKeys = []

instance (c : Channel) : Decidable (JustOpened c) :=
  inferInstanceAs (Decidable (_ ∧ _ ∧ _ ∧ _))

/-- The node of peer 7 ("bob"): it knows "alice" as peer 3 and holds a
channel with her, of which it is not the funder. -/
def demoBob : LightningNode :=
  { Address := "bob"
    PublicKey := [3]
    PeerDb := [("alice", 3)]
    Channels := [(3, 0)]
    Heap := [demoChannel false]
    BroadcastTransaction := [] }

/-- The update that "alice" proposes to "bob". -/
def demoProposed : Transaction :=
  { Body := demoUpdate.Body, Outputs := demoUpdate.Outputs, Witnesses := [] }

/-- A wallet that answers as the wallet of `demoEnv` where the declared
fee of the request is `w`, and with an empty transaction elsewhere. -/
def demoWalletAt (w : Nat) (ln : LightningNode) (req : WalletRequest) : Transaction :=
  if req.Fee = w then demoEnv.generateFundingTransaction ln req
  else { Body := [], Outputs := [], Witnesses := [] }

/-- A refund construction that answers as the one of `demoEnv` where the fee
passed to it is `w`, and with an empty transaction elsewhere. -/
def demoRefundAt (w : Nat) (ln : LightningNode) (theirPubKey : Bytes) (f : Transaction)
    (fee : Nat) (pubK : Bytes) : Transaction :=
  if fee = w then demoEnv.generateRefundTransaction ln theirPubKey f fee pubK
  else { Body := [], Outputs := [], Witnesses := [] }

/-! ## The opening request of the funder -/

/-- The node right after `ln.Channels[peer] = channel` in `CreateChannel`:
the new, empty funder channel is on the heap and `peer` points at it. -/
def CreateChannel.registered (ln : LightningNode) (peer : Peer) (theirPubKey : Bytes) :
    LightningNode :=
  { ln with
    Channels := mapSet ln.Channels peer ln.Heap.length
    Heap := ln.Heap ++
      [{ Funder := true
         FundingTransaction := none
         State := 0
         CounterPartyPubKey := theirPubKey
         MyTransactions := []
         TheirTransactions := []
         MyRevocationKeys := []
         TheirRevocationKeys := [] }] }

/-- The local `walletRequest` of `CreateChannel`. -/
def CreateChannel.walletRequest (theirPubKey : Bytes) (amount fee : Nat) : WalletRequest :=
  { Amount := amount, Fee := (fee * 2) % 2 ^ 32, CounterPartyPubKey := theirPubKey }

/-- The local `fundingTx` of `CreateChannel`, before the signature of the
node is appended. -/
def CreateChannel.fundingTx (env : Collaborators) (ln : LightningNode) (peer : Peer)
    (theirPubKey : Bytes) (amount fee : Nat) : Transaction :=
  env.generateFundingTransaction (CreateChannel.registered ln peer theirPubKey)
    (CreateChannel.walletRequest theirPubKey amount fee)

/-- The local `refundTx` of `CreateChannel`. -/
def CreateChannel.refundTx (env : Collaborators) (fresh : SimpleID) (ln : LightningNode)
    (peer : Peer) (theirPubKey : Bytes) (amount fee : Nat) : Transaction :=
  env.generateRefundTransaction (CreateChannel.registered ln peer theirPubKey) theirPubKey
    (CreateChannel.fundingTx env ln peer theirPubKey amount fee) fee
    (GenerateRevocationKey fresh).1

/-- The local `request` of `CreateChannel`, the argument of `OpenChannelRPC`. -/
def CreateChannel.request (env : Collaborators) (fresh : SimpleID) (ln : LightningNode)
    (peer : Peer) (theirPubKey : Bytes) (amount fee : Nat) : OpenChannelRequest :=
  { Address := ln.Address
    PublicKey := ln.PublicKey
    FundingTransaction :=
      env.EncodeTransaction (CreateChannel.fundingTx env ln peer theirPubKey amount fee)
    RefundTransaction :=
      env.EncodeTransaction
        (CreateChannel.refundTx env fresh ln peer theirPubKey amount fee) }

/-- The channel that `CreateChannel` leaves for `peer` when the remote call
answered `resp`. -/
def CreateChannel.opened (env : Collaborators) (fresh : SimpleID) (ln : LightningNode)
    (peer : Peer) (theirPubKey : Bytes) (amount fee : Nat) (resp : OpenChannelResponse) :
    Channel :=
  { Funder := true
    FundingTransaction := some (env.DecodeTransaction resp.SignedFundingTransaction)
    State := 0
    CounterPartyPubKey := theirPubKey
    MyTransactions := [env.DecodeTransaction resp.SignedRefundTransaction]
    TheirTransactions := [env.DecodeTransaction resp.SignedRefundTransaction]
    MyRevocationKeys :=
      [(env.Hash (CreateChannel.refundTx env fresh ln peer theirPubKey amount fee),
        fresh.PrivateKeyBytes)]
    TheirRevocationKeys := [] }

/-- The node at the call of `utils.Sign` in `CreateChannel`: `peer` points at
the opened channel, nothing has been broadcast yet. -/
def CreateChannel.settled (env : Collaborators) (fresh : SimpleID) (ln : LightningNode)
    (peer : Peer) (theirPubKey : Bytes) (amount fee : Nat) (resp : OpenChannelResponse) :
    LightningNode :=
  { ln with
    Channels := mapSet ln.Channels peer ln.Heap.length
    Heap := ln.Heap ++ [CreateChannel.opened env fresh ln peer theirPubKey amount fee resp] }

/-- The transaction that `CreateChannel` sends on `ln.BroadcastTransaction`
when the remote call answered `resp`: the local `fundingTx` with the
signature of the node over its hash appended to the witnesses. -/
def CreateChannel.broadcast (env : Collaborators) (fresh : SimpleID) (ln : LightningNode)
    (peer : Peer) (theirPubKey : Bytes) (amount fee : Nat) (resp : OpenChannelResponse) :
    Transaction :=
  { CreateChannel.fundingTx env ln peer theirPubKey amount fee with
    Witnesses :=
      (CreateChannel.fundingTx env ln peer theirPubKey amount fee).Witnesses ++
        [env.Sign (CreateChannel.settled env fresh ln peer theirPubKey amount fee resp)
          (env.Hash (CreateChannel.fundingTx env ln peer theirPubKey amount fee))] }

/-! ## Maps and the heap -/

theorem mapGet_mapSet_same {κ ν : Type} [DecidableEq κ] (m : List (κ × ν)) (k : κ)
    (v : ν) : mapGet (mapSet m k v) k = some v := by
  induction m with
  | nil => simp [mapSet, mapGet]
  | cons e m ih =>
    obtain ⟨k0, w⟩ := e
    by_cases h : k0 = k
    · simp [mapSet, mapGet, h]
    · simp [mapSet, mapGet, h, ih]

theorem mapGet_mapSet_other {κ ν : Type} [DecidableEq κ] (m : List (κ × ν)) (k x : κ)
    (v : ν) (hx : x ≠ k) : mapGet (mapSet m k v) x = mapGet m x := by
  induction m with
  | nil =>
    have hk : ¬ k = x := fun h => hx h.symm
    simp [mapSet, mapGet, hk]
  | cons e m ih =>
    obtain ⟨k0, w⟩ := e
    by_cases h : k0 = k
    · have hk : ¬ k = x := fun h => hx h.symm
      have hk0 : ¬ k0 = x := fun h0 => hk (h ▸ h0)
      simp [mapSet, mapGet, h, hk]
    · by_cases h0 : k0 = x
      · subst h0
        simp [mapSet, mapGet, h]
      · simp [mapSet, mapGet, h, h0, ih]

theorem mem_mapSet {κ ν : Type} [DecidableEq κ] (m : List (κ × ν)) (k : κ) (v : ν)
    (e : κ × ν) (he : e ∈ mapSet m k v) : e ∈ m ∨ e = (k, v) := by
  induction m with
  | nil => simpa [mapSet] using he
  | cons e0 m ih =>
    obtain ⟨k0, w⟩ := e0
    by_cases h : k0 = k
    · simp only [mapSet, h, if_true, List.mem_cons] at he
      rcases he with he | he
      · exact Or.inr he
      · exact Or.inl (List.mem_cons_of_mem _ he)
    · simp only [mapSet, h, if_false, List.mem_cons] at he
      rcases he with he | he
      · exact Or.inl (he ▸ List.mem_cons_self _ _)
      · rcases ih he with h1 | h1
        · exact Or.inl (List.mem_cons_of_mem _ h1)
        · exact Or.inr h1

@[simp] theorem store_Channels (ln : LightningNode) (r : ChannelRef) (c : Channel) :
    (ln.store r c).Channels = ln.Channels := rfl

@[simp] theorem store_PeerDb (ln : LightningNode) (r : ChannelRef) (c : Channel) :
    (ln.store r c).PeerDb = ln.PeerDb := rfl

@[simp] theorem store_Heap (ln : LightningNode) (r : ChannelRef) (c : Channel) :
    (ln.store r c).Heap = ln.Heap.set r c := rfl

theorem store_store (ln : LightningNode) (r : ChannelRef) (a b : Channel) :
    (ln.store r a).store r b = ln.store r b := by
  simp [LightningNode.store, List.set_set]

theorem heap_set_same {h : List Channel} {r : ChannelRef} {c : Channel} (d : Channel)
    (hc : h[r]? = some c) : (h.set r d)[r]? = some d := by
  have hlt := (List.getElem?_eq_some.1 hc).1
  simp [List.getElem?_set, hlt]

theorem heap_append_old {h : List Channel} {r : ChannelRef} {c : Channel} (d : Channel)
    (hc : h[r]? = some c) : (h ++ [d])[r]? = some c := by
  have hlt := (List.getElem?_eq_some.1 hc).1
  simp [List.getElem?_append_left hlt, hc]

theorem heap_append_set (h : List Channel) (a b : Channel) :
    (h ++ [a]).set h.length b = h ++ [b] := by
  simp [List.set_append]

/-! ## The responder handlers, case by case -/

theorem GetUpdatedTransactions_unknown (env : Collaborators) (fresh : SimpleID)
    (ln : LightningNode) (req : TransactionWithAddress)
    (hp : mapGet ln.PeerDb req.Address = none) :
    GetUpdatedTransactions env fresh ln req = (ln, .empty) := by
  simp [GetUpdatedTransactions, hp]

theorem GetUpdatedTransactions_nochannel (env : Collaborators) (fresh : SimpleID)
    (ln : LightningNode) (req : TransactionWithAddress) (peer : Peer)
    (hp : mapGet ln.PeerDb req.Address = some peer)
    (hn : mapGet ln.Channels peer = none) :
    GetUpdatedTransactions env fresh ln req = (ln, .failed "do not have the channel") := by
  simp [GetUpdatedTransactions, hp, hn]

theorem GetUpdatedTransactions_failed (env : Collaborators) (fresh : SimpleID)
    (ln : LightningNode) (req : TransactionWithAddress) (err : String)
    (hf : (GetUpdatedTransactions env fresh ln req).2 = .failed err) :
    (GetUpdatedTransactions env fresh ln req).1 = ln := by
  generalize hres : GetUpdatedTransactions env fresh ln req = res at *
  unfold GetUpdatedTransactions at hres
  simp only [] at hres
  repeat' (split at hres)
  all_goals subst hres
  all_goals first | rfl | simp at hf

theorem GetUpdatedTransactions_ok (env : Collaborators) (fresh : SimpleID)
    (ln : LightningNode) (req : TransactionWithAddress) (peer : Peer) (r : ChannelRef)
    (c : Channel) (resp : UpdatedTransactions)
    (hp : mapGet ln.PeerDb req.Address = some peer)
    (hr : mapGet ln.Channels peer = some r) (hc : ln.Heap[r]? = some c)
    (hok : (GetUpdatedTransactions env fresh ln req).2 = .ok resp) :
    ∃ tx1, env.ValidateAndSign ln (env.DecodeTransactionWithAddress req) = .ok tx1 ∧
      (GetUpdatedTransactions env fresh ln req).1 =
        ln.store r
          { c with
            TheirTransactions := c.TheirTransactions ++ [tx1]
            MyRevocationKeys :=
              mapSet c.MyRevocationKeys
                (env.Hash (env.generateTransactionWithCorrectScripts ln peer tx1
                  fresh.PublicKeyBytes))
                fresh.PrivateKeyBytes } ∧
      resp =
        { SignedTransaction := env.EncodeTransaction tx1
          UnsignedTransaction :=
            env.EncodeTransaction
              (env.generateTransactionWithCorrectScripts ln peer tx1
                fresh.PublicKeyBytes) } := by
  generalize hres : GetUpdatedTransactions env fresh ln req = res at *
  unfold GetUpdatedTransactions at hres
  simp only [hp, hr, hc] at hres
  repeat' (split at hres)
  all_goals subst hres
  all_goals simp at hok
  rename_i tx1 htx
  exact ⟨tx1, htx, rfl, hok.symm⟩

theorem GetRevocationKey_unknown (env : Collaborators) (ln : LightningNode)
    (req : SignedTransactionWithKey) (hp : mapGet ln.PeerDb req.Address = none) :
    GetRevocationKey env ln req = (ln, .empty) := by
  simp [GetRevocationKey, hp]

theorem GetRevocationKey_nochannel (env : Collaborators) (ln : LightningNode)
    (req : SignedTransactionWithKey) (peer : Peer)
    (hp : mapGet ln.PeerDb req.Address = some peer)
    (hn : mapGet ln.Channels peer = none) :
    GetRevocationKey env ln req = (ln, .failed "do not have the channel") := by
  simp [GetRevocationKey, hp, hn]

theorem GetRevocationKey_ok (env : Collaborators) (ln : LightningNode)
    (req : SignedTransactionWithKey) (peer : Peer) (r : ChannelRef) (c : Channel)
    (resp : RevocationKey)
    (hp : mapGet ln.PeerDb req.Address = some peer)
    (hr : mapGet ln.Channels peer = some r) (hc : ln.Heap[r]? = some c)
    (hok : (GetRevocationKey env ln req).2 = .ok resp) :
    ∃ out0 scriptType out,
      (env.DecodeTransaction req.SignedTransaction).Outputs[0]? = some out0 ∧
      env.DetermineScriptType out0.LockingScript = .ok scriptType ∧
      (env.DecodeTransaction req.SignedTransaction).Outputs[coinIndex c]? = some out ∧
      (GetRevocationKey env ln req).1 =
        ln.store r
          { c with
            MyTransactions :=
              c.MyTransactions ++ [env.DecodeTransaction req.SignedTransaction]
            TheirRevocationKeys :=
              mapSet c.TheirRevocationKeys req.RevocationKey
                { RevKey := req.RevocationKey
                  TransactionOutput := out
                  OutputIndex := coinIndex c
                  TransactionHash := env.Hash (env.DecodeTransaction req.SignedTransaction)
                  ScriptType := scriptType }
            State := c.State + 1 } ∧
      resp.Key =
        (mapGet c.MyRevocationKeys
          (env.Hash (env.DecodeTransaction req.SignedTransaction))).getD [] := by
  generalize hres : GetRevocationKey env ln req = res at *
  unfold GetRevocationKey at hres
  simp only [hp, hr, hc] at hres
  repeat' (split at hres)
  all_goals subst hres
  all_goals simp at hok
  rename_i _ out0 h0 _ st hst _ out hout
  refine ⟨out0, st, out, h0, hst, ?_, ?_, ?_⟩
  · simpa [coinIndex] using hout
  · simp [store_store, coinIndex]
  · subst hok; rfl

/-! ## Evolution of the heap -/

theorem channelEvolves_refl (c : Channel) : ChannelEvolves c c :=
  ⟨Eq.refl _, Nat.le_refl _, Nat.le_succ _, id⟩

theorem nodeEvolves_refl (ln : LightningNode) : NodeEvolves ln ln :=
  ⟨fun _ c hc => ⟨c, hc, channelEvolves_refl c⟩, fun _ _ h1 h2 => by simp [h1] at h2⟩

theorem store_evolves {ln : LightningNode} {r : ChannelRef} {c : Channel} (d : Channel)
    (hc : ln.Heap[r]? = some c) (hcd : ChannelEvolves c d) :
    NodeEvolves ln (ln.store r d) := by
  have hlt := (List.getElem?_eq_some.1 hc).1
  constructor
  · intro r0 c0 h0
    by_cases hr : r = r0
    · subst hr
      have hcc : c0 = c := by simpa [hc] using h0.symm
      subst hcc
      exact ⟨d, heap_set_same d hc, hcd⟩
    · exact ⟨c0, by simpa [List.getElem?_set, hr] using h0, channelEvolves_refl c0⟩
  · intro r0 d0 h0 hn
    by_cases hr : r = r0
    · subst hr
      simp [hc] at hn
    · simp [List.getElem?_set, hr, hn] at h0

theorem alloc_evolves (ln : LightningNode) (m : List (Peer × ChannelRef)) (d : Channel)
    (b : List Transaction) (hd : IndexSymmetric d) :
    NodeEvolves ln
      { ln with Channels := m, Heap := ln.Heap ++ [d], BroadcastTransaction := b } := by
  constructor
  · intro r0 c0 h0
    exact ⟨c0, heap_append_old d h0, channelEvolves_refl c0⟩
  · intro r0 d0 h0 hn
    have hle := List.getElem?_eq_none_iff.1 hn
    simp only [List.getElem?_append_right hle] at h0
    rcases Nat.eq_zero_or_pos (r0 - ln.Heap.length) with hz | hz
    · simp [hz] at h0
      exact h0 ▸ hd
    · obtain ⟨k, hk⟩ := Nat.exists_eq_succ_of_ne_zero (Nat.pos_iff_ne_zero.1 hz)
      simp [hk] at h0

theorem indexSymmetric_of_nil (c : Channel) (h : c.TheirRevocationKeys = []) :
    IndexSymmetric c := by
  intro e he
  simp [h] at he

theorem indexSymmetric_mapSet {c d : Channel} (info : RevocationInfo) (k : Bytes)
    (hf : d.Funder = c.Funder)
    (hk : d.TheirRevocationKeys = mapSet c.TheirRevocationKeys k info)
    (hi : info.OutputIndex = coinIndex c) (hc : IndexSymmetric c) :
    IndexSymmetric d := by
  intro e he
  rw [hk] at he
  rcases mem_mapSet _ _ _ _ he with h | h
  · rw [hf]
    exact hc e h
  · rw [hf, h]
    simpa [coinIndex] using hi

theorem channelEvolves_same {c d : Channel} (hf : d.Funder = c.Funder)
    (hs : d.State = c.State) (hk : d.TheirRevocationKeys = c.TheirRevocationKeys) :
    ChannelEvolves c d := by
  refine ⟨hf, by omega, by omega, ?_⟩
  intro h e he
  rw [hf]
  exact h e (hk ▸ he)

theorem channelEvolves_next {c d : Channel} (hf : d.Funder = c.Funder)
    (hs : d.State = c.State + 1) (hk : d.TheirRevocationKeys = c.TheirRevocationKeys) :
    ChannelEvolves c d := by
  refine ⟨hf, by omega, by omega, ?_⟩
  intro h e he
  rw [hf]
  exact h e (hk ▸ he)

theorem channelEvolves_reveal {c d : Channel} (info : RevocationInfo) (k : Bytes)
    (hf : d.Funder = c.Funder) (hs : d.State = c.State + 1)
    (hk : d.TheirRevocationKeys = mapSet c.TheirRevocationKeys k info)
    (hi : info.OutputIndex = coinIndex c) : ChannelEvolves c d :=
  ⟨hf, by omega, by omega, indexSymmetric_mapSet info k hf hk hi⟩

theorem GetUpdatedTransactions_evolves (env : Collaborators) (fresh : SimpleID)
    (ln : LightningNode) (req : TransactionWithAddress) :
    NodeEvolves ln (GetUpdatedTransactions env fresh ln req).1 := by
  generalize hres : GetUpdatedTransactions env fresh ln req = res at *
  unfold GetUpdatedTransactions at hres
  simp only [] at hres
  repeat' (split at hres)
  all_goals subst hres
  all_goals first
    | exact nodeEvolves_refl ln
    | (apply store_evolves
       · assumption
       · exact channelEvolves_same rfl rfl rfl)

theorem GetRevocationKey_evolves (env : Collaborators) (ln : LightningNode)
    (req : SignedTransactionWithKey) :
    NodeEvolves ln (GetRevocationKey env ln req).1 := by
  generalize hres : GetRevocationKey env ln req = res at *
  unfold GetRevocationKey at hres
  simp only [] at hres
  repeat' (split at hres)
  all_goals subst hres
  all_goals simp only [store_store]
  all_goals first
    | exact nodeEvolves_refl ln
    | (apply store_evolves
       · assumption
       · first
         | exact channelEvolves_same rfl rfl rfl
         | exact channelEvolves_reveal _ _ rfl rfl rfl (by simp [coinIndex]))

theorem UpdateState_evolves (env : Collaborators) (ln : LightningNode) (peer : Peer)
    (tx : Transaction) : NodeEvolves ln (UpdateState env ln peer tx).1 := by
  generalize hres : UpdateState env ln peer tx = res at *
  unfold UpdateState at hres
  simp only [] at hres
  repeat' (split at hres)
  all_goals subst hres
  all_goals simp only [store_store]
  all_goals first
    | exact nodeEvolves_refl ln
    | (apply store_evolves
       · assumption
       · first
         | exact channelEvolves_same rfl rfl rfl
         | exact channelEvolves_next rfl rfl rfl
         | exact channelEvolves_reveal _ _ rfl rfl rfl (by simp [coinIndex]))

theorem OpenChannel_evolves (env : Collaborators) (fresh : SimpleID)
    (ln : LightningNode) (req : OpenChannelRequest) :
    NodeEvolves ln (OpenChannel env fresh ln req).1 := by
  generalize hres : OpenChannel env fresh ln req = res at *
  unfold OpenChannel at hres
  simp only [] at hres
  repeat' (split at hres)
  all_goals subst hres
  all_goals first
    | exact nodeEvolves_refl ln
    | exact alloc_evolves ln _ _ _ (indexSymmetric_of_nil _ rfl)

theorem CreateChannel_evolves (env : Collaborators) (fresh : SimpleID)
    (ln : LightningNode) (peer : Peer) (theirPubKey : Bytes) (amount fee : Nat) :
    NodeEvolves ln (CreateChannel env fresh ln peer theirPubKey amount fee).1 := by
  generalize hres : CreateChannel env fresh ln peer theirPubKey amount fee = res at *
  unfold CreateChannel at hres
  simp only [] at hres
  repeat' (split at hres)
  all_goals subst hres
  all_goals simp only [store_store]
  all_goals simp only [LightningNode.store, heap_append_set]
  all_goals exact alloc_evolves ln _ _ _ (indexSymmetric_of_nil _ rfl)

theorem step_evolves {ln ln2 : LightningNode} (s : Step ln ln2) : NodeEvolves ln ln2 := by
  cases s with
  | createChannel env fresh _ peer key amount fee =>
    exact CreateChannel_evolves env fresh ln peer key amount fee
  | openChannel env fresh _ req => exact OpenChannel_evolves env fresh ln req
  | updateState env _ peer tx => exact UpdateState_evolves env ln peer tx
  | getUpdatedTransactions env fresh _ req =>
    exact GetUpdatedTransactions_evolves env fresh ln req
  | getRevocationKey env _ req => exact GetRevocationKey_evolves env ln req
  | version _ db =>
    exact ⟨fun _ c hc => ⟨c, hc, channelEvolves_refl c⟩,
      fun _ _ h1 h2 => absurd (h2 ▸ h1 : none = some _) (by simp)⟩

theorem reachable_indexSymmetric {ln : LightningNode} (h : Reachable ln) :
    ∀ (r : ChannelRef) (c : Channel), ln.Heap[r]? = some c → IndexSymmetric c := by
  induction h with
  | init ln0 _ hh =>
    intro r c hc
    simp [hh] at hc
  | @step l1 l2 _ s ih =>
    intro r c hc
    have hev := step_evolves s
    cases hold : l1.Heap[r]? with
    | none => exact hev.2 r c hc hold
    | some c0 =>
      obtain ⟨d, hd, hcd⟩ := hev.1 r c0 hold
      have hdc : d = c := by simpa [hd] using hc
      subst hdc
      exact hcd.2.2.2 (ih r c0 hold)

/-! ## The remaining operations, case by case -/

theorem UpdateState_ok (env : Collaborators) (ln : LightningNode) (peer : Peer)
    (tx : Transaction) (r : ChannelRef) (c : Channel)
    (hr : mapGet ln.Channels peer = some r) (hc : ln.Heap[r]? = some c)
    (hok : (UpdateState env ln peer tx).2 = .ok ()) :
    ∃ (signedTx unsignedTx1 : Transaction) (out0 : TransactionOutput)
      (info : RevocationInfo),
      unsignedTx1.Outputs[0]? = some out0 ∧
      env.DetermineScriptType out0.LockingScript = .ok info.ScriptType ∧
      unsignedTx1.Outputs[coinIndex c]? = some info.TransactionOutput ∧
      info.OutputIndex = coinIndex c ∧
      info.TransactionHash = env.Hash unsignedTx1 ∧
      (UpdateState env ln peer tx).1 =
        ln.store r
          { c with
            MyTransactions := c.MyTransactions ++ [signedTx]
            TheirTransactions := c.TheirTransactions ++ [unsignedTx1]
            State := c.State + 1
            TheirRevocationKeys := mapSet c.TheirRevocationKeys info.RevKey info } := by
  generalize hres : UpdateState env ln peer tx = res at *
  unfold UpdateState at hres
  simp only [hr, hc] at hres
  repeat' (split at hres)
  all_goals subst hres
  all_goals simp at hok
  rename_i _ u _ _ revKey _ _ out0 h0 _ st hst _ out hout
  refine ⟨env.DecodeTransaction u.SignedTransaction,
    { env.DecodeTransaction u.UnsignedTransaction with
      Witnesses :=
        (env.DecodeTransaction u.UnsignedTransaction).Witnesses ++
          [env.Sign
            (ln.store r
              { c with
                MyTransactions :=
                  c.MyTransactions ++ [env.DecodeTransaction u.SignedTransaction] })
            (env.Hash (env.DecodeTransaction u.UnsignedTransaction))] },
    out0,
    { RevKey := revKey.Key, TransactionOutput := out, OutputIndex := coinIndex c,
      TransactionHash := _, ScriptType := st }, h0, hst, ?_, rfl, rfl, ?_⟩
  · simpa [coinIndex] using hout
  · simp [store_store, coinIndex]

theorem OpenChannel_unknown (env : Collaborators) (fresh : SimpleID)
    (ln : LightningNode) (req : OpenChannelRequest)
    (hp : mapGet ln.PeerDb req.Address = none) :
    OpenChannel env fresh ln req = (ln, .empty) := by
  simp [OpenChannel, hp]

theorem OpenChannel_existing (env : Collaborators) (fresh : SimpleID)
    (ln : LightningNode) (req : OpenChannelRequest) (peer : Peer) (r : ChannelRef)
    (hp : mapGet ln.PeerDb req.Address = some peer)
    (hr : mapGet ln.Channels peer = some r) :
    OpenChannel env fresh ln req = (ln, .empty) := by
  simp [OpenChannel, hp, hr]

theorem OpenChannel_new (env : Collaborators) (fresh : SimpleID)
    (ln : LightningNode) (req : OpenChannelRequest) (peer : Peer)
    (funding refund : Transaction)
    (hp : mapGet ln.PeerDb req.Address = some peer)
    (hn : mapGet ln.Channels peer = none)
    (hf : env.ValidateAndSign ln (env.DecodeTransaction req.FundingTransaction)
      = .ok funding)
    (hrf : env.ValidateAndSign ln (env.DecodeTransaction req.RefundTransaction)
      = .ok refund) :
    OpenChannel env fresh ln req =
      ({ ln with
          Channels := mapSet ln.Channels peer ln.Heap.length
          Heap := ln.Heap ++
            [{ Funder := false
               FundingTransaction := some funding
               State := 0
               CounterPartyPubKey := req.PublicKey
               MyTransactions := [refund]
               TheirTransactions := [refund]
               MyRevocationKeys := [(env.Hash refund, fresh.PrivateKeyBytes)]
               TheirRevocationKeys := [] }] },
        .ok { PublicKey := ln.PublicKey
              SignedFundingTransaction := env.EncodeTransaction funding
              SignedRefundTransaction := env.EncodeTransaction refund }) := by
  simp [OpenChannel, hp, hn, hf, hrf, mapSet, GenerateRevocationKey]

theorem OpenChannel_ok (env : Collaborators) (fresh : SimpleID)
    (ln : LightningNode) (req : OpenChannelRequest) (resp : OpenChannelResponse)
    (hok : (OpenChannel env fresh ln req).2 = .ok resp) :
    ∃ peer funding refund,
      mapGet ln.PeerDb req.Address = some peer ∧ mapGet ln.Channels peer = none ∧
      env.ValidateAndSign ln (env.DecodeTransaction req.FundingTransaction)
        = .ok funding ∧
      env.ValidateAndSign ln (env.DecodeTransaction req.RefundTransaction)
        = .ok refund := by
  generalize hres : OpenChannel env fresh ln req = res at *
  unfold OpenChannel at hres
  simp only [] at hres
  repeat' (split at hres)
  all_goals subst hres
  all_goals simp at hok
  rename_i _ peer hp _ hn _ funding hf _ refund hrf
  exact ⟨peer, funding, refund, hp, hn, hf, hrf⟩

theorem CreateChannel_ok (env : Collaborators) (fresh : SimpleID)
    (ln : LightningNode) (peer : Peer) (theirPubKey : Bytes) (amount fee : Nat)
    (hok : (CreateChannel env fresh ln peer theirPubKey amount fee).2 = .ok ()) :
    ∃ d : Channel,
      (CreateChannel env fresh ln peer theirPubKey amount fee).1.Channels
          = mapSet ln.Channels peer ln.Heap.length ∧
      (CreateChannel env fresh ln peer theirPubKey amount fee).1.Heap
          = ln.Heap ++ [d] ∧
      d.Funder = true ∧ d.State = 0 ∧ d.CounterPartyPubKey = theirPubKey ∧
      d.MyTransactions.length = 1 ∧ d.TheirTransactions = d.MyTransactions ∧
      d.TheirRevocationKeys = [] := by
  generalize hres : CreateChannel env fresh ln peer theirPubKey amount fee = res at *
  unfold CreateChannel at hres
  simp only [] at hres
  repeat' (split at hres)
  all_goals subst hres
  all_goals simp at hok
  have hh : ∀ (h : List Channel) (a b d : Channel),
      ((h ++ [a]).set h.length b).set h.length d = h ++ [d] := by
    intro h a b d
    simp [List.set_set, heap_append_set]
  exact ⟨_, rfl, hh _ _ _ _, rfl, rfl, rfl, rfl, rfl, rfl⟩

theorem onChannel_some {P : Channel → Prop} {o : Option Channel} {c : Channel}
    (ho : o = some c) (hP : P c) : onChannel P o := by
  subst ho
  exact hP

theorem alloc_channelOf (ln ln2 : LightningNode) (peer : Peer) (d : Channel)
    (hm : ln2.Channels = mapSet ln.Channels peer ln.Heap.length)
    (hh : ln2.Heap = ln.Heap ++ [d]) : ln2.channelOf peer = some d := by
  simp [LightningNode.channelOf, hm, hh, mapGet_mapSet_same]

/-! ## C1: the length invariant -/

/-- C1, counterexample: the channel of peer 7 in `demoNode` satisfies the
length invariant; `GetUpdatedTransactions` succeeds on the proposal of that
peer and leaves the channel with one transaction in `MyTransactions`, two in
`TheirTransactions` and `State = 0`, which breaks the invariant. -/
theorem C1_counterexample :
    (demoNode false).channelOf 7 = some (demoChannel false) ∧
    LengthInvariant (demoChannel false) ∧
    (GetUpdatedTransactions demoEnv demoID (demoNode false) demoProposal).2 =
      Reply.ok
        { SignedTransaction := { demoUpdate with Witnesses := [[9]] }
          UnsignedTransaction :=
            { Body := [1, 6]
              Outputs :=
                [{ Amount := 3, LockingScript := [1] }, { Amount := 4, LockingScript := [1] }]
              Witnesses := [] } } ∧
    (((GetUpdatedTransactions demoEnv demoID (demoNode false) demoProposal).1.channelOf
        7).map
      (fun c => (c.MyTransactions.length, c.TheirTransactions.length, c.State)))
      = some (1, 2, 0) ∧
    ¬ onChannel LengthInvariant
        ((GetUpdatedTransactions demoEnv demoID (demoNode false) demoProposal).1.channelOf
          7) := by
  decide

/-- C1, amended: for a channel of `peer` that satisfies
`len(MyTransactions) = len(TheirTransactions) = State + 1`:
`UpdateState`, when it returns, leaves the invariant in force; `OpenChannel`
for a peer that has a channel leaves the node as it is;
`GetUpdatedTransactions` leaves the node as it is when it returns an error,
and when it succeeds it leaves `len(MyTransactions) = State + 1` and
`len(TheirTransactions) = State + 2` at the same `State`; a successful
`GetRevocationKey` after that puts the invariant back in force. On every
node, the channel made by a successful `CreateChannel` or `OpenChannel`
satisfies the invariant. Each part stands under its own premises only. -/
theorem C1_length_invariant_per_round (env : Collaborators) (fresh : SimpleID)
    (ln : LightningNode) (peer : Peer) (r : ChannelRef) (c : Channel)
    (tx : Transaction) (again : OpenChannelRequest) (upd : TransactionWithAddress)
    (rev : SignedTransactionWithKey) (err : String) (resp : UpdatedTransactions)
    (key : RevocationKey) (other : Peer) (theirPubKey : Bytes) (amount fee : Nat)
    (opening : OpenChannelRequest) (opened : OpenChannelResponse) (newPeer : Peer) :
    (mapGet ln.Channels peer = some r → ln.Heap[r]? = some c → LengthInvariant c →
      (UpdateState env ln peer tx).2 = .ok () →
      onChannel LengthInvariant ((UpdateState env ln peer tx).1.Heap[r]?)) ∧
    (mapGet ln.PeerDb again.Address = some peer → mapGet ln.Channels peer = some r →
      (OpenChannel env fresh ln again).1 = ln) ∧
    ((GetUpdatedTransactions env fresh ln upd).2 = .failed err →
      (GetUpdatedTransactions env fresh ln upd).1 = ln) ∧
    (mapGet ln.Channels peer = some r → ln.Heap[r]? = some c → LengthInvariant c →
      mapGet ln.PeerDb upd.Address = some peer →
      (GetUpdatedTransactions env fresh ln upd).2 = .ok resp →
      onChannel (fun d => MidRound d ∧ d.State = c.State)
        ((GetUpdatedTransactions env fresh ln upd).1.Heap[r]?) ∧
      (mapGet ln.PeerDb rev.Address = some peer →
        (GetRevocationKey env (GetUpdatedTransactions env fresh ln upd).1 rev).2
          = .ok key →
        onChannel LengthInvariant
          ((GetRevocationKey env
            (GetUpdatedTransactions env fresh ln upd).1 rev).1.Heap[r]?))) ∧
    ((CreateChannel env fresh ln other theirPubKey amount fee).2 = .ok () →
      onChannel LengthInvariant
        ((CreateChannel env fresh ln other theirPubKey amount fee).1.channelOf other)) ∧
    ((OpenChannel env fresh ln opening).2 = .ok opened →
      mapGet ln.PeerDb opening.Address = some newPeer →
      onChannel LengthInvariant
        ((OpenChannel env fresh ln opening).1.channelOf newPeer)) := by
  refine ⟨?_, ?_, ?_, ?_, ?_, ?_⟩
  · intro hr hc hinv hok
    obtain ⟨hmy, htheir⟩ := hinv
    obtain ⟨s1, u1, o0, info, -, -, -, -, -, hres⟩ :=
      UpdateState_ok env ln peer tx r c hr hc hok
    rw [hres]
    refine onChannel_some (heap_set_same _ hc) ?_
    simp [LengthInvariant, hmy, htheir]
  · intro hagain hr
    rw [OpenChannel_existing env fresh ln again peer r hagain hr]
  · exact GetUpdatedTransactions_failed env fresh ln upd err
  · intro hr hc hinv hupd hok
    obtain ⟨hmy, htheir⟩ := hinv
    obtain ⟨tx1, -, hres, -⟩ :=
      GetUpdatedTransactions_ok env fresh ln upd peer r c resp hupd hr hc hok
    rw [hres]
    refine ⟨onChannel_some (heap_set_same _ hc) ?_, ?_⟩
    · simp [MidRound, hmy, htheir]
    · intro hrev hok2
      generalize hc1 :
        ({ c with
            TheirTransactions := c.TheirTransactions ++ [tx1]
            MyRevocationKeys :=
              mapSet c.MyRevocationKeys
                (env.Hash (env.generateTransactionWithCorrectScripts ln peer tx1
                  fresh.PublicKeyBytes))
                fresh.PrivateKeyBytes } : Channel) = c1 at hok2 ⊢
      have hc2 : (ln.store r c1).Heap[r]? = some c1 := heap_set_same c1 hc
      obtain ⟨o0, st, o, -, -, -, hres2, -⟩ :=
        GetRevocationKey_ok env (ln.store r c1) rev peer r c1 key hrev hr hc2 hok2
      rw [hres2]
      refine onChannel_some (heap_set_same _ hc2) ?_
      subst hc1
      simp [LengthInvariant, hmy, htheir]
  · intro hok
    obtain ⟨d, hm, hh, -, hs, -, hl, hlt, -⟩ :=
      CreateChannel_ok env fresh ln other theirPubKey amount fee hok
    refine onChannel_some (alloc_channelOf ln _ other d hm hh) ?_
    simp [LengthInvariant, hs, hl, hlt]
  · intro hok hnew
    obtain ⟨p, f, rf, hp, hn, hf, hrf⟩ := OpenChannel_ok env fresh ln opening opened hok
    have hpp : p = newPeer := by simpa [hp] using hnew
    subst hpp
    rw [OpenChannel_new env fresh ln opening p f rf hp hn hf hrf]
    refine onChannel_some (alloc_channelOf ln _ p _ rfl rfl) ?_
    simp [LengthInvariant]

/-- C1, witness: the amended statement at `demoNode`, where the channel of
peer 7 satisfies the invariant and every call succeeds, and at `demoEmpty`,
where the first channel of the node is opened. -/
theorem C1_length_invariant_per_round_witness :
    LengthInvariant (demoChannel false) ∧
    onChannel LengthInvariant
      ((UpdateState demoEnv (demoNode false) 7 demoRefund).1.Heap[0]?) ∧
    (OpenChannel demoEnv demoID (demoNode false) demoOpenAgain).1 = demoNode false ∧
    onChannel LengthInvariant
      ((GetRevocationKey demoEnv
        (GetUpdatedTransactions demoEnv demoID (demoNode false) demoProposal).1
        demoReveal).1.Heap[0]?) ∧
    onChannel LengthInvariant
      ((CreateChannel demoEnv demoID (demoNode false) 8 [3] 1000 10).1.channelOf 8) ∧
    onChannel LengthInvariant
      ((OpenChannel demoEnv demoID (demoNode false) demoOpen).1.channelOf 8) ∧
    onChannel LengthInvariant
      ((CreateChannel demoEnv demoID demoEmpty 8 [3] 1000 10).1.channelOf 8) ∧
    onChannel LengthInvariant
      ((OpenChannel demoEnv demoID demoEmpty demoOpen).1.channelOf 8) := by
  have h := C1_length_invariant_per_round demoEnv demoID (demoNode false) 7 0
    (demoChannel false) demoRefund demoOpenAgain demoProposal demoReveal ""
    { SignedTransaction := { demoUpdate with Witnesses := [[9]] }
      UnsignedTransaction :=
        { Body := [1, 6]
          Outputs :=
            [{ Amount := 3, LockingScript := [1] }, { Amount := 4, LockingScript := [1] }]
          Witnesses := [] } }
    { Key := [42] } 8 [3] 1000 10 demoOpen
    { PublicKey := [2]
      SignedFundingTransaction := { demoOpen.FundingTransaction with Witnesses := [[9]] }
      SignedRefundTransaction := { demoOpen.RefundTransaction with Witnesses := [[9]] } }
    8
  have h0 := C1_length_invariant_per_round demoEnv demoID demoEmpty 7 0
    (demoChannel false) demoRefund demoOpenAgain demoProposal demoReveal ""
    { SignedTransaction := { demoUpdate with Witnesses := [[9]] }
      UnsignedTransaction :=
        { Body := [1, 6]
          Outputs :=
            [{ Amount := 3, LockingScript := [1] }, { Amount := 4, LockingScript := [1] }]
          Witnesses := [] } }
    { Key := [42] } 8 [3] 1000 10 demoOpen
    { PublicKey := [2]
      SignedFundingTransaction := { demoOpen.FundingTransaction with Witnesses := [[9]] }
      SignedRefundTransaction := { demoOpen.RefundTransaction with Witnesses := [[9]] } }
    8
  exact ⟨by decide, h.1 (by decide) (by decide) (by decide) (by decide),
    h.2.1 (by decide) (by decide),
    (h.2.2.2.1 (by decide) (by decide) (by decide) (by decide) (by decide)).2 (by decide)
      (by decide),
    h.2.2.2.2.1 (by decide), h.2.2.2.2.2 (by decide) (by decide),
    h0.2.2.2.2.1 (by decide), h0.2.2.2.2.2 (by decide) (by decide)⟩

/-! ## The map of channels -/

theorem UpdateState_Channels (env : Collaborators) (ln : LightningNode) (peer : Peer)
    (tx : Transaction) : (UpdateState env ln peer tx).1.Channels = ln.Channels := by
  generalize hres : UpdateState env ln peer tx = res at *
  unfold UpdateState at hres
  simp only [] at hres
  repeat' (split at hres)
  all_goals subst hres
  all_goals rfl

theorem GetUpdatedTransactions_Channels (env : Collaborators) (fresh : SimpleID)
    (ln : LightningNode) (req : TransactionWithAddress) :
    (GetUpdatedTransactions env fresh ln req).1.Channels = ln.Channels := by
  generalize hres : GetUpdatedTransactions env fresh ln req = res at *
  unfold GetUpdatedTransactions at hres
  simp only [] at hres
  repeat' (split at hres)
  all_goals subst hres
  all_goals rfl

theorem GetRevocationKey_Channels (env : Collaborators) (ln : LightningNode)
    (req : SignedTransactionWithKey) :
    (GetRevocationKey env ln req).1.Channels = ln.Channels := by
  generalize hres : GetRevocationKey env ln req = res at *
  unfold GetRevocationKey at hres
  simp only [] at hres
  repeat' (split at hres)
  all_goals subst hres
  all_goals rfl

theorem OpenChannel_Channels (env : Collaborators) (fresh : SimpleID)
    (ln : LightningNode) (req : OpenChannelRequest) (p : Peer) (r : ChannelRef)
    (hm : mapGet ln.Channels p = some r) :
    mapGet (OpenChannel env fresh ln req).1.Channels p = some r := by
  generalize hres : OpenChannel env fresh ln req = res at *
  unfold OpenChannel at hres
  simp only [] at hres
  repeat' (split at hres)
  all_goals subst hres
  all_goals first
    | exact hm
    | (rename_i peer _ _ hn _ _ _ _ _ _
       have hne : p ≠ peer := by
         intro h
         rw [h, hn] at hm
         simp at hm
       simpa [mapGet_mapSet_other ln.Channels peer p ln.Heap.length hne] using hm)

theorem stateStep_channelOf {ln ln2 : LightningNode} (hev : NodeEvolves ln ln2)
    {p : Peer} {r : ChannelRef} {c : Channel} (hm : mapGet ln2.Channels p = some r)
    (hc : ln.Heap[r]? = some c) : StateStep c (ln2.channelOf p) := by
  obtain ⟨d, hd, -, h1, h2, -⟩ := hev.1 r c hc
  simp only [LightningNode.channelOf, hm, hd]
  exact ⟨h1, h2⟩

/-! ## C2: monotonic state -/

theorem stateStep_of_evolves {ln ln2 : LightningNode} (h : NodeEvolves ln ln2)
    {r : ChannelRef} {c : Channel} (hc : ln.Heap[r]? = some c) :
    StateStep c (ln2.Heap[r]?) := by
  obtain ⟨d, hd, -, h1, h2, -⟩ := h.1 r c hc
  rw [hd]
  exact ⟨h1, h2⟩

/-- C2: for a channel of `peer` with `State = n` and `n + 1` transactions on
each side, (a) a successful `GetUpdatedTransactions` followed by a successful
`GetRevocationKey` for that peer, and (b) an `UpdateState` that returns, each
end with `State = n + 1` and `n + 2` transactions on each side; (c) on every
node, for every channel object `c0`, each of the five operations, with any
arguments and on any outcome, leaves that object with a `State` that is the
same or one more; and (d) `UpdateState`, `OpenChannel`,
`GetUpdatedTransactions` and `GetRevocationKey` keep the channel object of
`peer` in the map, so the `State` held for `peer` is the same or one more
(`CreateChannel` puts a new object in the map for its peer). Each part stands
under its own premises only. -/
theorem C2_monotonic_state (env : Collaborators) (fresh : SimpleID)
    (ln : LightningNode) (peer : Peer) (r : ChannelRef) (c : Channel) (n : Nat)
    (upd : TransactionWithAddress) (rev : SignedTransactionWithKey)
    (resp : UpdatedTransactions) (key : RevocationKey) (tx : Transaction)
    (r0 : ChannelRef) (c0 : Channel) (p1 : Peer) (theirPubKey : Bytes)
    (amount fee : Nat) (p2 : Peer) (tx2 : Transaction) (req3 : OpenChannelRequest)
    (req4 : TransactionWithAddress) (req5 : SignedTransactionWithKey) :
    (mapGet ln.Channels peer = some r → ln.Heap[r]? = some c → AtRound n c →
      mapGet ln.PeerDb upd.Address = some peer →
      mapGet ln.PeerDb rev.Address = some peer →
      (GetUpdatedTransactions env fresh ln upd).2 = .ok resp →
      (GetRevocationKey env (GetUpdatedTransactions env fresh ln upd).1 rev).2
        = .ok key →
      onChannel (AtRound (n + 1))
        ((GetRevocationKey env
          (GetUpdatedTransactions env fresh ln upd).1 rev).1.Heap[r]?)) ∧
    (mapGet ln.Channels peer = some r → ln.Heap[r]? = some c → AtRound n c →
      (UpdateState env ln peer tx).2 = .ok () →
      onChannel (AtRound (n + 1)) ((UpdateState env ln peer tx).1.Heap[r]?)) ∧
    (ln.Heap[r0]? = some c0 →
      StateStep c0 ((CreateChannel env fresh ln p1 theirPubKey amount fee).1.Heap[r0]?) ∧
      StateStep c0 ((UpdateState env ln p2 tx2).1.Heap[r0]?) ∧
      StateStep c0 ((OpenChannel env fresh ln req3).1.Heap[r0]?) ∧
      StateStep c0 ((GetUpdatedTransactions env fresh ln req4).1.Heap[r0]?) ∧
      StateStep c0 ((GetRevocationKey env ln req5).1.Heap[r0]?)) ∧
    (mapGet ln.Channels peer = some r → ln.Heap[r]? = some c →
      StateStep c ((UpdateState env ln p2 tx2).1.channelOf peer) ∧
      StateStep c ((OpenChannel env fresh ln req3).1.channelOf peer) ∧
      StateStep c ((GetUpdatedTransactions env fresh ln req4).1.channelOf peer) ∧
      StateStep c ((GetRevocationKey env ln req5).1.channelOf peer)) := by
  refine ⟨?_, ?_, ?_, ?_⟩
  · intro hr hc hn hupd hrev hok hok2
    obtain ⟨hs, hmy, htheir⟩ := hn
    obtain ⟨tx1, -, hres, -⟩ :=
      GetUpdatedTransactions_ok env fresh ln upd peer r c resp hupd hr hc hok
    rw [hres] at hok2 ⊢
    generalize hc1 :
      ({ c with
          TheirTransactions := c.TheirTransactions ++ [tx1]
          MyRevocationKeys :=
            mapSet c.MyRevocationKeys
              (env.Hash (env.generateTransactionWithCorrectScripts ln peer tx1
                fresh.PublicKeyBytes))
              fresh.PrivateKeyBytes } : Channel) = c1 at hok2 ⊢
    have hc2 : (ln.store r c1).Heap[r]? = some c1 := heap_set_same c1 hc
    obtain ⟨o0, st, o, -, -, -, hres2, -⟩ :=
      GetRevocationKey_ok env (ln.store r c1) rev peer r c1 key hrev hr hc2 hok2
    rw [hres2]
    refine onChannel_some (heap_set_same _ hc2) ?_
    subst hc1
    simp [AtRound, hs, hmy, htheir]
  · intro hr hc hn hok
    obtain ⟨hs, hmy, htheir⟩ := hn
    obtain ⟨s1, u1, o0, info, -, -, -, -, -, hres⟩ :=
      UpdateState_ok env ln peer tx r c hr hc hok
    rw [hres]
    refine onChannel_some (heap_set_same _ hc) ?_
    simp [AtRound, hs, hmy, htheir]
  · intro h0
    exact ⟨stateStep_of_evolves
        (CreateChannel_evolves env fresh ln p1 theirPubKey amount fee) h0,
      stateStep_of_evolves (UpdateState_evolves env ln p2 tx2) h0,
      stateStep_of_evolves (OpenChannel_evolves env fresh ln req3) h0,
      stateStep_of_evolves (GetUpdatedTransactions_evolves env fresh ln req4) h0,
      stateStep_of_evolves (GetRevocationKey_evolves env ln req5) h0⟩
  · intro hr hc
    exact ⟨stateStep_channelOf (UpdateState_evolves env ln p2 tx2)
        (by rw [UpdateState_Channels]; exact hr) hc,
      stateStep_channelOf (OpenChannel_evolves env fresh ln req3)
        (OpenChannel_Channels env fresh ln req3 peer r hr) hc,
      stateStep_channelOf (GetUpdatedTransactions_evolves env fresh ln req4)
        (by rw [GetUpdatedTransactions_Channels]; exact hr) hc,
      stateStep_channelOf (GetRevocationKey_evolves env ln req5)
        (by rw [GetRevocationKey_Channels]; exact hr) hc⟩

/-- C2, witness: the statement at `demoNode`, whose channel with peer 7 is at
state 0 and where both rounds succeed, and at `demoMidRound`, the node between
the two responder steps, on which `GetRevocationKey` moves the state by
one. -/
theorem C2_monotonic_state_witness :
    AtRound 0 (demoChannel false) ∧
    onChannel (AtRound 1)
      ((GetRevocationKey demoEnv
        (GetUpdatedTransactions demoEnv demoID (demoNode false) demoProposal).1
        demoReveal).1.Heap[0]?) ∧
    onChannel (AtRound 1) ((UpdateState demoEnv (demoNode false) 7 demoRefund).1.Heap[0]?) ∧
    StateStep (demoChannel false)
      ((CreateChannel demoEnv demoID (demoNode false) 7 [3] 1000 10).1.Heap[0]?) ∧
    StateStep (demoChannel false)
      ((GetRevocationKey demoEnv (demoNode false) demoReveal).1.channelOf 7) ∧
    demoMidRound.Heap[0]? = some demoMidRoundChannel ∧
    ¬ LengthInvariant demoMidRoundChannel ∧
    StateStep demoMidRoundChannel
      ((GetRevocationKey demoEnv demoMidRound demoReveal).1.Heap[0]?) := by
  have h := C2_monotonic_state demoEnv demoID (demoNode false) 7 0 (demoChannel false) 0
    demoProposal demoReveal
    { SignedTransaction := { demoUpdate with Witnesses := [[9]] }
      UnsignedTransaction :=
        { Body := [1, 6]
          Outputs :=
            [{ Amount := 3, LockingScript := [1] }, { Amount := 4, LockingScript := [1] }]
          Witnesses := [] } }
    { Key := [42] } demoRefund 0 (demoChannel false) 7 [3] 1000 10 7 demoRefund
    demoOpen demoProposal demoReveal
  have hm := C2_monotonic_state demoEnv demoID demoMidRound 7 0 demoMidRoundChannel 0
    demoProposal demoReveal
    { SignedTransaction := { demoUpdate with Witnesses := [[9]] }
      UnsignedTransaction :=
        { Body := [1, 6]
          Outputs :=
            [{ Amount := 3, LockingScript := [1] }, { Amount := 4, LockingScript := [1] }]
          Witnesses := [] } }
    { Key := [42] } demoRefund 0 demoMidRoundChannel 7 [3] 1000 10 7 demoRefund
    demoOpen demoProposal demoReveal
  exact ⟨by decide,
    h.1 (by decide) (by decide) (by decide) (by decide) (by decide) (by decide) (by decide),
    h.2.1 (by decide) (by decide) (by decide) (by decide),
    (h.2.2.1 (by decide)).1,
    (h.2.2.2 (by decide) (by decide)).2.2.2,
    by decide, by decide,
    (hm.2.2.1 (by decide)).2.2.2.2⟩

/-! ## C3: index symmetry -/

theorem steps_sameFunder {ln ln2 : LightningNode} (h : Relation.ReflTransGen Step ln ln2) :
    ∀ (r : ChannelRef) (c : Channel), ln.Heap[r]? = some c →
      onChannel (SameFunder c) (ln2.Heap[r]?) := by
  induction h with
  | refl =>
    intro r c hc
    exact onChannel_some hc rfl
  | @tail l1 l2 _ s ih =>
    intro r c hc
    have h1 := ih r c hc
    cases hd : l1.Heap[r]? with
    | none => simp [hd, onChannel] at h1
    | some d =>
      rw [hd] at h1
      obtain ⟨d2, hd2, hf, -⟩ := (step_evolves s).1 r d hd
      exact onChannel_some hd2 (hf.trans h1)

/-- C3: in every node reachable from a node without channels by calls of
`CreateChannel`, `OpenChannel`, `UpdateState`, `GetUpdatedTransactions` and
`GetRevocationKey`, every `RevocationInfo` stored in `TheirRevocationKeys` of a
channel has `OutputIndex = 1` when the channel is the funder's and
`OutputIndex = 0` otherwise; and after any further calls the channel object
still has the same `Funder` flag. -/
theorem C3_index_symmetry (ln ln2 : LightningNode) (r : ChannelRef) (c : Channel)
    (hreach : Reachable ln) (hc : ln.Heap[r]? = some c)
    (hsteps : Relation.ReflTransGen Step ln ln2) :
    IndexSymmetric c ∧ onChannel (SameFunder c) (ln2.Heap[r]?) :=
  ⟨reachable_indexSymmetric hreach r c hc, steps_sameFunder hsteps r c hc⟩

/-- C3, witness: `demoServed` is reached by an `OpenChannel`, a
`GetUpdatedTransactions` and a `GetRevocationKey`; its channel holds one
`RevocationInfo`; `UpdateState` is the further call. -/
theorem C3_index_symmetry_witness :
    Reachable demoServed ∧
    demoServed.Heap[0]? = some demoServedChannel ∧
    demoServedChannel.TheirRevocationKeys.map (fun e => e.2.OutputIndex) = [0] ∧
    IndexSymmetric demoServedChannel ∧
    onChannel (SameFunder demoServedChannel)
      ((UpdateState demoEnv demoServed 8 demoRefund).1.Heap[0]?) :=
  have hreach : Reachable demoServed :=
    Reachable.step
      (Reachable.step
        (Reachable.step (Reachable.init demoEmpty rfl rfl)
          (Step.openChannel demoEnv demoID0 demoEmpty demoOpen))
        (Step.getUpdatedTransactions demoEnv demoID _ _))
      (Step.getRevocationKey demoEnv _ _)
  have h := C3_index_symmetry demoServed (UpdateState demoEnv demoServed 8 demoRefund).1 0
    demoServedChannel hreach (by decide)
    (Relation.ReflTransGen.single (Step.updateState demoEnv demoServed 8 demoRefund))
  ⟨hreach, by decide, by decide, h.1, h.2⟩

/-! ## C4: which key is revealed -/

/-- C4, counterexample: the channel of peer 7 in `demoPending` satisfies the
length invariant; `GetRevocationKey` succeeds and returns the key `[42]`;
afterwards `State = 1`, `MyTransactions` has two entries, the entry of
`MyRevocationKeys` for the transaction at index 0 is `[41]` and the one for
the transaction at index 1 is `[42]`: the returned key belongs to the
transaction at index 1, which is the state after the increment, and no
transaction at index 2 exists. -/
theorem C4_counterexample :
    demoPending.channelOf 7 = some demoPendingChannel ∧
    LengthInvariant demoPendingChannel ∧
    (GetRevocationKey demoEnv demoPending demoReveal).2 = Reply.ok { Key := [42] } ∧
    ((GetRevocationKey demoEnv demoPending demoReveal).1.channelOf 7).map
      (fun c =>
        (c.State, c.MyTransactions.map (fun t => mapGet c.MyRevocationKeys (demoHash t))))
      = some (1, [some [41], some [42]]) := by
  decide

/-- C4, amended: for a channel that satisfies the length invariant, a
successful `GetRevocationKey` returns the entry of `MyRevocationKeys` (nil
when there is none) under the hash of the transaction of the request; the call
has appended that transaction to `MyTransactions` at the index equal to
`State` after the increment, which is the last index. -/
theorem C4_revealed_key_is_of_newest (env : Collaborators) (ln : LightningNode)
    (req : SignedTransactionWithKey) (peer : Peer) (r : ChannelRef) (c : Channel)
    (key : RevocationKey)
    (hp : mapGet ln.PeerDb req.Address = some peer)
    (hr : mapGet ln.Channels peer = some r) (hc : ln.Heap[r]? = some c)
    (hinv : LengthInvariant c)
    (hok : (GetRevocationKey env ln req).2 = .ok key) :
    onChannel
      (fun d =>
        d.State = c.State + 1 ∧
        d.MyTransactions.length = d.State + 1 ∧
        d.MyTransactions[d.State]? = some (env.DecodeTransaction req.SignedTransaction) ∧
        d.MyRevocationKeys = c.MyRevocationKeys ∧
        key.Key =
          (mapGet d.MyRevocationKeys
            (env.Hash (env.DecodeTransaction req.SignedTransaction))).getD [])
      ((GetRevocationKey env ln req).1.Heap[r]?) := by
  obtain ⟨o0, st, o, -, -, -, hres, hkey⟩ :=
    GetRevocationKey_ok env ln req peer r c key hp hr hc hok
  rw [hres]
  refine onChannel_some (heap_set_same _ hc) ⟨rfl, ?_, ?_, rfl, hkey⟩
  · simp [hinv.1]
  · have hlen : c.State + 1 = c.MyTransactions.length := hinv.1.symm
    simp [hlen]

/-- C4, witness: the amended statement at `demoPending`. -/
theorem C4_revealed_key_is_of_newest_witness :
    LengthInvariant demoPendingChannel ∧
    onChannel
      (fun d =>
        d.State = demoPendingChannel.State + 1 ∧
        d.MyTransactions.length = d.State + 1 ∧
        d.MyTransactions[d.State]? =
          some (demoEnv.DecodeTransaction demoReveal.SignedTransaction) ∧
        d.MyRevocationKeys = demoPendingChannel.MyRevocationKeys ∧
        (⟨[42]⟩ : RevocationKey).Key =
          (mapGet d.MyRevocationKeys
            (demoEnv.Hash (demoEnv.DecodeTransaction demoReveal.SignedTransaction))).getD [])
      ((GetRevocationKey demoEnv demoPending demoReveal).1.Heap[0]?) :=
  ⟨by decide,
    C4_revealed_key_is_of_newest demoEnv demoPending demoReveal 7 0 demoPendingChannel
      ⟨[42]⟩ (by decide) (by decide) (by decide) (by decide) (by decide)⟩

/-! ## C5: responder steps on an error -/

/-- C5, evaluation at the failing input: on `demoNode`, for the request
`demoBadReveal` of peer 7, `GetRevocationKey` returns the error of the script
classification, and the channel of peer 7 has the transaction of the request
appended to `MyTransactions`: the node is not as it was before the call. -/
theorem C5_GetRevocationKey_error_after_append :
    (demoNode false).channelOf 7 = some (demoChannel false) ∧
    GetRevocationKey demoEnv (demoNode false) demoBadReveal =
      ({ demoNode false with
          Heap :=
            [{ demoChannel false with
               MyTransactions :=
                 [demoRefund,
                  { Body := [1, 6]
                    Outputs :=
                      [{ Amount := 3, LockingScript := [2] },
                       { Amount := 4, LockingScript := [1] }]
                    Witnesses := [[8]] }] }] },
        Reply.failed "could not determine script type") ∧
    (GetRevocationKey demoEnv (demoNode false) demoBadReveal).1 ≠ demoNode false := by
  decide

/-! ## C6: the stored script type -/

/-- C6, evaluation at the failing input: on the funder node `demoNode true`,
`GetRevocationKey` for `demoMixedReveal` stores a `RevocationInfo` with
`OutputIndex = 1`, the second output (locking script `[1]`) as
`TransactionOutput`, and `ScriptType = 0`, the class of the first output
(locking script `[0]`), while the locking script of the stored output has
class 1; `UpdateState` stores such an entry too. -/
theorem C6_script_type_of_first_output :
    (demoNode true).channelOf 7 = some (demoChannel true) ∧
    ((GetRevocationKey demoEnv (demoNode true) demoMixedReveal).1.channelOf 7).map
      (fun c =>
        c.TheirRevocationKeys.map
          (fun e => (e.2.OutputIndex, e.2.TransactionOutput.LockingScript, e.2.ScriptType)))
      = some [(1, [1], 0)] ∧
    ((UpdateState demoEnv (demoNode true) 7 demoRefund).1.channelOf 7).map
      (fun c =>
        c.TheirRevocationKeys.map
          (fun e => (e.2.OutputIndex, e.2.TransactionOutput.LockingScript, e.2.ScriptType)))
      = some [(1, [1], 0)] ∧
    (demoEnv.DetermineScriptType [1]).toOption = some 1 ∧
    (demoEnv.DetermineScriptType [0]).toOption = some 0 := by
  decide

/-! ## C7: update for a peer without channel -/

/-- C7: when the address of an update request resolves to a peer that has no
channel in the node, `GetUpdatedTransactions` returns the error
"do not have the channel" and the node is unchanged; the same holds for
`GetRevocationKey`. -/
theorem C7_channel_not_found (env : Collaborators) (fresh : SimpleID)
    (ln : LightningNode) (upd : TransactionWithAddress) (rev : SignedTransactionWithKey)
    (peer1 peer2 : Peer)
    (hp1 : mapGet ln.PeerDb upd.Address = some peer1)
    (hn1 : mapGet ln.Channels peer1 = none)
    (hp2 : mapGet ln.PeerDb rev.Address = some peer2)
    (hn2 : mapGet ln.Channels peer2 = none) :
    GetUpdatedTransactions env fresh ln upd = (ln, .failed "do not have the channel") ∧
    GetRevocationKey env ln rev = (ln, .failed "do not have the channel") :=
  ⟨GetUpdatedTransactions_nochannel env fresh ln upd peer1 hp1 hn1,
    GetRevocationKey_nochannel env ln rev peer2 hp2 hn2⟩

/-- C7, witness: peer 8 ("carol") is known to `demoNode` and has no channel
there. -/
theorem C7_channel_not_found_witness :
    mapGet (demoNode false).PeerDb "carol" = some 8 ∧
    mapGet (demoNode false).Channels 8 = none ∧
    GetUpdatedTransactions demoEnv demoID (demoNode false)
        { demoProposal with Address := "carol" }
      = (demoNode false, .failed "do not have the channel") ∧
    GetRevocationKey demoEnv (demoNode false) { demoReveal with Address := "carol" }
      = (demoNode false, .failed "do not have the channel") :=
  ⟨by decide, by decide,
    C7_channel_not_found demoEnv demoID (demoNode false)
      { demoProposal with Address := "carol" } { demoReveal with Address := "carol" } 8 8
      (by decide) (by decide) (by decide) (by decide)⟩

/-! ## C8, C9, C10: the responder side of the opening -/

/-- C8: when a channel exists for the peer that the address of the request
resolves to, `OpenChannel` leaves the node, and so the `Channels` map and
every field of the existing channel, unchanged. -/
theorem C8_duplicate_open_frame (env : Collaborators) (fresh : SimpleID)
    (ln : LightningNode) (req : OpenChannelRequest) (peer : Peer) (r : ChannelRef)
    (hp : mapGet ln.PeerDb req.Address = some peer)
    (hr : mapGet ln.Channels peer = some r) :
    (OpenChannel env fresh ln req).1 = ln ∧
    (OpenChannel env fresh ln req).1.channelOf peer = ln.channelOf peer := by
  rw [OpenChannel_existing env fresh ln req peer r hp hr]
  exact ⟨rfl, rfl⟩

/-- C8, witness: peer 7 opens again on `demoNode`, where it has a channel. -/
theorem C8_duplicate_open_frame_witness :
    mapGet (demoNode false).PeerDb demoOpenAgain.Address = some 7 ∧
    mapGet (demoNode false).Channels 7 = some 0 ∧
    (OpenChannel demoEnv demoID (demoNode false) demoOpenAgain).1 = demoNode false ∧
    (OpenChannel demoEnv demoID (demoNode false) demoOpenAgain).1.channelOf 7
      = (demoNode false).channelOf 7 :=
  ⟨by decide, by decide,
    C8_duplicate_open_frame demoEnv demoID (demoNode false) demoOpenAgain 7 0
      (by decide) (by decide)⟩

/-- C9, counterexample: on `demoNode`, an open request from the unknown
address "dave" and a second open request from peer 7, which has a channel,
both end with a nil response and a nil error. -/
theorem C9_counterexample :
    mapGet (demoNode false).PeerDb "dave" = none ∧
    (OpenChannel demoEnv demoID (demoNode false) { demoOpen with Address := "dave" }).2
      = Reply.empty ∧
    mapGet (demoNode false).PeerDb demoOpenAgain.Address = some 7 ∧
    mapGet (demoNode false).Channels 7 = some 0 ∧
    (OpenChannel demoEnv demoID (demoNode false) demoOpenAgain).2 = Reply.empty := by
  decide

/-- C9, amended: when the address does not resolve to a known peer, or a
channel exists for that peer, `OpenChannel` returns a nil response together
with a nil error and leaves the node unchanged; and these are the only
requests on which it returns nil with nil. -/
theorem C9_open_rejection_is_silent (env : Collaborators) (fresh : SimpleID)
    (ln : LightningNode) (req : OpenChannelRequest) :
    (OpenRejected ln req → OpenChannel env fresh ln req = (ln, .empty)) ∧
    ((OpenChannel env fresh ln req).2 = .empty → OpenRejected ln req) := by
  constructor
  · intro h
    unfold OpenRejected at h
    cases hp : mapGet ln.PeerDb req.Address with
    | none => exact OpenChannel_unknown env fresh ln req hp
    | some peer =>
      rw [hp] at h
      cases hr : mapGet ln.Channels peer with
      | none => simp [hr] at h
      | some r => exact OpenChannel_existing env fresh ln req peer r hp hr
  · intro h
    unfold OpenRejected
    cases hp : mapGet ln.PeerDb req.Address with
    | none => trivial
    | some peer =>
      cases hr : mapGet ln.Channels peer with
      | some r => simp [hr]
      | none =>
        exfalso
        generalize hres : OpenChannel env fresh ln req = res at *
        unfold OpenChannel at hres
        simp only [hp, hr] at hres
        repeat' (split at hres)
        all_goals subst hres
        all_goals simp at h

/-- C9, witness: the second open request of peer 7 on `demoNode`. -/
theorem C9_open_rejection_is_silent_witness :
    OpenRejected (demoNode false) demoOpenAgain ∧
    OpenChannel demoEnv demoID (demoNode false) demoOpenAgain
      = (demoNode false, .empty) :=
  ⟨by decide,
    (C9_open_rejection_is_silent demoEnv demoID (demoNode false) demoOpenAgain).1
      (by decide)⟩

/-- C10: for a request from a known peer without channel whose funding and
refund transactions both pass `ValidateAndSign`, `OpenChannel` answers with
the encodings of the two countersigned transactions; afterwards the node
holds for that peer a channel with `Funder = false`, `State = 0`, the
countersigned funding transaction, the public key of the request, the
countersigned refund transaction as the one entry of `MyTransactions` and of
`TheirTransactions`, one entry in `MyRevocationKeys` under the hash of that
refund transaction, and no entry in `TheirRevocationKeys`; every other peer
that had a channel has that same channel, and every other peer without
an entry in the map has none. -/
theorem C10_responder_open (env : Collaborators) (fresh : SimpleID)
    (ln : LightningNode) (req : OpenChannelRequest) (peer : Peer)
    (funding refund : Transaction) (q : Peer) (cq : Channel)
    (hp : mapGet ln.PeerDb req.Address = some peer)
    (hn : mapGet ln.Channels peer = none)
    (hf : env.ValidateAndSign ln (env.DecodeTransaction req.FundingTransaction)
      = .ok funding)
    (hrf : env.ValidateAndSign ln (env.DecodeTransaction req.RefundTransaction)
      = .ok refund) :
    (OpenChannel env fresh ln req).2 =
      .ok { PublicKey := ln.PublicKey
            SignedFundingTransaction := env.EncodeTransaction funding
            SignedRefundTransaction := env.EncodeTransaction refund } ∧
    (OpenChannel env fresh ln req).1.channelOf peer =
      some
        { Funder := false
          FundingTransaction := some funding
          State := 0
          CounterPartyPubKey := req.PublicKey
          MyTransactions := [refund]
          TheirTransactions := [refund]
          MyRevocationKeys := [(env.Hash refund, fresh.PrivateKeyBytes)]
          TheirRevocationKeys := [] } ∧
    (q ≠ peer → ln.channelOf q = some cq →
      (OpenChannel env fresh ln req).1.channelOf q = some cq) ∧
    (q ≠ peer → mapGet ln.Channels q = none →
      mapGet (OpenChannel env fresh ln req).1.Channels q = none) := by
  rw [OpenChannel_new env fresh ln req peer funding refund hp hn hf hrf]
  refine ⟨rfl, alloc_channelOf ln _ peer _ rfl rfl, ?_, ?_⟩
  · intro hq hcq
    unfold LightningNode.channelOf at hcq ⊢
    simp only [mapGet_mapSet_other ln.Channels peer q ln.Heap.length hq]
    cases hm : mapGet ln.Channels q with
    | none => simp [hm] at hcq
    | some rq =>
      simp only [hm] at hcq ⊢
      exact heap_append_old _ hcq
  · intro hq hnone
    simp only [mapGet_mapSet_other ln.Channels peer q ln.Heap.length hq]
    exact hnone

/-- C10, witness: peer 8 opens the first channel of `demoEmpty`, and peer 8
opens a channel on `demoNode`, which holds a channel with peer 7. -/
theorem C10_responder_open_witness :
    mapGet demoEmpty.PeerDb demoOpen.Address = some 8 ∧
    mapGet demoEmpty.Channels 8 = none ∧
    (OpenChannel demoEnv demoID demoEmpty demoOpen).2 =
      .ok { PublicKey := [2]
            SignedFundingTransaction := { demoOpen.FundingTransaction with Witnesses := [[9]] }
            SignedRefundTransaction := { demoOpen.RefundTransaction with Witnesses := [[9]] } } ∧
    (OpenChannel demoEnv demoID demoEmpty demoOpen).1.channelOf 8 =
      some
        { Funder := false
          FundingTransaction :=
            some { Body := [7], Outputs := [{ Amount := 12, LockingScript := [0] }],
                   Witnesses := [[9]] }
          State := 0
          CounterPartyPubKey := [3]
          MyTransactions :=
            [{ Body := [0], Outputs := [{ Amount := 1, LockingScript := [1] }],
               Witnesses := [[9]] }]
          TheirTransactions :=
            [{ Body := [0], Outputs := [{ Amount := 1, LockingScript := [1] }],
               Witnesses := [[9]] }]
          MyRevocationKeys := [("ab", [42])]
          TheirRevocationKeys := [] } ∧
    mapGet (OpenChannel demoEnv demoID demoEmpty demoOpen).1.Channels 7 = none ∧
    mapGet (demoNode false).PeerDb demoOpen.Address = some 8 ∧
    mapGet (demoNode false).Channels 8 = none ∧
    (OpenChannel demoEnv demoID (demoNode false) demoOpen).1.channelOf 8 =
      some
        { Funder := false
          FundingTransaction :=
            some { Body := [7], Outputs := [{ Amount := 12, LockingScript := [0] }],
                   Witnesses := [[9]] }
          State := 0
          CounterPartyPubKey := [3]
          MyTransactions :=
            [{ Body := [0], Outputs := [{ Amount := 1, LockingScript := [1] }],
               Witnesses := [[9]] }]
          TheirTransactions :=
            [{ Body := [0], Outputs := [{ Amount := 1, LockingScript := [1] }],
               Witnesses := [[9]] }]
          MyRevocationKeys := [("ab", [42])]
          TheirRevocationKeys := [] } ∧
    (OpenChannel demoEnv demoID (demoNode false) demoOpen).1.channelOf 7
      = some (demoChannel false) :=
  have h0 := C10_responder_open demoEnv demoID demoEmpty demoOpen 8
    { Body := [7], Outputs := [{ Amount := 12, LockingScript := [0] }], Witnesses := [[9]] }
    { Body := [0], Outputs := [{ Amount := 1, LockingScript := [1] }], Witnesses := [[9]] }
    7 (demoChannel false) (by decide) (by decide) rfl rfl
  have h := C10_responder_open demoEnv demoID (demoNode false) demoOpen 8
    { Body := [7], Outputs := [{ Amount := 12, LockingScript := [0] }], Witnesses := [[9]] }
    { Body := [0], Outputs := [{ Amount := 1, LockingScript := [1] }], Witnesses := [[9]] }
    7 (demoChannel false) (by decide) (by decide) rfl rfl
  ⟨by decide, by decide, h0.1, h0.2.1, h0.2.2.2 (by decide) (by decide),
    by decide, by decide, h.2.1, h.2.2.1 (by decide) (by decide)⟩

/-! ## The funder side of the opening -/

theorem CreateChannel_answered (env : Collaborators) (fresh : SimpleID)
    (ln : LightningNode) (peer : Peer) (theirPubKey : Bytes) (amount fee : Nat)
    (resp : OpenChannelResponse)
    (hrpc : env.OpenChannelRPC peer
      (CreateChannel.request env fresh ln peer theirPubKey amount fee) = .ok resp) :
    CreateChannel env fresh ln peer theirPubKey amount fee =
      ({ CreateChannel.settled env fresh ln peer theirPubKey amount fee resp with
          BroadcastTransaction :=
            ln.BroadcastTransaction ++
              [CreateChannel.broadcast env fresh ln peer theirPubKey amount fee resp] },
        .ok ()) := by
  have hrpc2 := hrpc
  simp only [CreateChannel.request, CreateChannel.refundTx, CreateChannel.fundingTx,
    CreateChannel.registered, CreateChannel.walletRequest, GenerateRevocationKey] at hrpc2
  simp only [CreateChannel, LightningNode.store, hrpc2, CreateChannel.settled,
    CreateChannel.opened, CreateChannel.broadcast, CreateChannel.refundTx,
    CreateChannel.fundingTx, CreateChannel.registered, CreateChannel.walletRequest,
    List.set_set, heap_append_set, mapSet, GenerateRevocationKey, List.nil_append]

theorem CreateChannel_refused (env : Collaborators) (fresh : SimpleID)
    (ln : LightningNode) (peer : Peer) (theirPubKey : Bytes) (amount fee : Nat)
    (err : String)
    (hrpc : env.OpenChannelRPC peer
      (CreateChannel.request env fresh ln peer theirPubKey amount fee) = .error err) :
    (CreateChannel env fresh ln peer theirPubKey amount fee).2
      = .abort "OpenChannelRPC error" := by
  have hrpc2 := hrpc
  simp only [CreateChannel.request, CreateChannel.refundTx, CreateChannel.fundingTx,
    CreateChannel.registered, CreateChannel.walletRequest, GenerateRevocationKey] at hrpc2
  simp only [CreateChannel, LightningNode.store, GenerateRevocationKey, hrpc2]

/-- C11: whenever the remote `OpenChannelRPC` answers the request of
`CreateChannel` with `resp`, `CreateChannel` returns and the node holds for
`peer` a channel with `Funder = true`, `State = 0`, the given counterparty
key, the decoded countersigned funding transaction of `resp` as
`FundingTransaction`, the decoded countersigned refund transaction of `resp`
as the one entry of `MyTransactions` and of `TheirTransactions`, one entry in
`MyRevocationKeys` under the hash of the refund transaction that was sent in
the request, and no entry in `TheirRevocationKeys`. -/
theorem C11_funder_open (env : Collaborators) (fresh : SimpleID) (ln : LightningNode)
    (peer : Peer) (theirPubKey : Bytes) (amount fee : Nat) (resp : OpenChannelResponse)
    (hrpc : env.OpenChannelRPC peer
      (CreateChannel.request env fresh ln peer theirPubKey amount fee) = .ok resp) :
    (CreateChannel env fresh ln peer theirPubKey amount fee).2 = .ok () ∧
    (CreateChannel env fresh ln peer theirPubKey amount fee).1.channelOf peer =
      some
        { Funder := true
          FundingTransaction := some (env.DecodeTransaction resp.SignedFundingTransaction)
          State := 0
          CounterPartyPubKey := theirPubKey
          MyTransactions := [env.DecodeTransaction resp.SignedRefundTransaction]
          TheirTransactions := [env.DecodeTransaction resp.SignedRefundTransaction]
          MyRevocationKeys :=
            [(env.Hash (CreateChannel.refundTx env fresh ln peer theirPubKey amount fee),
              fresh.PrivateKeyBytes)]
          TheirRevocationKeys := [] } ∧
    (CreateChannel.request env fresh ln peer theirPubKey amount fee).RefundTransaction =
      env.EncodeTransaction
        (CreateChannel.refundTx env fresh ln peer theirPubKey amount fee) := by
  rw [CreateChannel_answered env fresh ln peer theirPubKey amount fee resp hrpc]
  exact ⟨rfl, alloc_channelOf ln _ peer _ rfl rfl, rfl⟩

/-- C11, witness: `CreateChannel` towards peer 8 on `demoEmpty`; the remote
side countersigns with the witness `[9]`. -/
theorem C11_funder_open_witness :
    demoEnv.OpenChannelRPC 8 (CreateChannel.request demoEnv demoID demoEmpty 8 [3] 1000 10) =
      .ok
        { PublicKey := [3]
          SignedFundingTransaction :=
            { Body := [12], Outputs := [{ Amount := 1020, LockingScript := [0] }],
              Witnesses := [[9]] }
          SignedRefundTransaction :=
            { Body := [12, 6], Outputs := [{ Amount := 10, LockingScript := [1] }],
              Witnesses := [[9]] } } ∧
    (CreateChannel demoEnv demoID demoEmpty 8 [3] 1000 10).2 = .ok () ∧
    (CreateChannel demoEnv demoID demoEmpty 8 [3] 1000 10).1.channelOf 8 =
      some
        { Funder := true
          FundingTransaction :=
            some { Body := [12], Outputs := [{ Amount := 1020, LockingScript := [0] }],
                   Witnesses := [[9]] }
          State := 0
          CounterPartyPubKey := [3]
          MyTransactions :=
            [{ Body := [12, 6], Outputs := [{ Amount := 10, LockingScript := [1] }],
               Witnesses := [[9]] }]
          TheirTransactions :=
            [{ Body := [12, 6], Outputs := [{ Amount := 10, LockingScript := [1] }],
               Witnesses := [[9]] }]
          MyRevocationKeys := [("mgk", [42])]
          TheirRevocationKeys := [] } ∧
    (CreateChannel.request demoEnv demoID demoEmpty 8 [3] 1000 10).RefundTransaction =
      { Body := [12, 6], Outputs := [{ Amount := 10, LockingScript := [1] }],
        Witnesses := [] } :=
  ⟨rfl,
    C11_funder_open demoEnv demoID demoEmpty 8 [3] 1000 10
      { PublicKey := [3]
        SignedFundingTransaction :=
          { Body := [12], Outputs := [{ Amount := 1020, LockingScript := [0] }],
            Witnesses := [[9]] }
        SignedRefundTransaction :=
          { Body := [12, 6], Outputs := [{ Amount := 10, LockingScript := [1] }],
            Witnesses := [[9]] } }
      rfl⟩

/-! ## C16: the broadcast transaction -/

/-- C16, counterexample: `CreateChannel` towards peer 8 on `demoEmpty`
returns; the funding transaction stored on the channel carries the witness
`[9]` of the counterparty, and the one transaction handed to
`BroadcastTransaction` carries the witness `[8]` of this node only: it is not
the stored transaction with the signature of the node appended, whose
witnesses would be `[9]` and `[8]`. -/
theorem C16_counterexample :
    (CreateChannel demoEnv demoID demoEmpty 8 [3] 1000 10).2 = Reply.ok () ∧
    ((CreateChannel demoEnv demoID demoEmpty 8 [3] 1000 10).1.channelOf 8).map
      (fun c => c.FundingTransaction.map (fun t => t.Witnesses)) = some (some [[9]]) ∧
    (CreateChannel demoEnv demoID demoEmpty 8 [3] 1000 10).1.BroadcastTransaction.map
      (fun t => t.Witnesses) = [[[8]]] := by
  decide

/-- C16, amended: whenever the remote `OpenChannelRPC` answers with `resp`,
the transaction that `CreateChannel` hands to `BroadcastTransaction` is the
funding transaction that the node generated and sent in the request, with the
signature of the node over its hash appended to its witnesses; the funding
transaction stored on the channel is the countersigned one decoded from
`resp`. -/
theorem C16_broadcast_of_local_funding (env : Collaborators) (fresh : SimpleID)
    (ln : LightningNode) (peer : Peer) (theirPubKey : Bytes) (amount fee : Nat)
    (resp : OpenChannelResponse)
    (hrpc : env.OpenChannelRPC peer
      (CreateChannel.request env fresh ln peer theirPubKey amount fee) = .ok resp) :
    (CreateChannel env fresh ln peer theirPubKey amount fee).1.BroadcastTransaction =
      ln.BroadcastTransaction ++
        [{ CreateChannel.fundingTx env ln peer theirPubKey amount fee with
           Witnesses :=
             (CreateChannel.fundingTx env ln peer theirPubKey amount fee).Witnesses ++
               [env.Sign
                 (CreateChannel.settled env fresh ln peer theirPubKey amount fee resp)
                 (env.Hash (CreateChannel.fundingTx env ln peer theirPubKey amount fee))] }] ∧
    (CreateChannel.request env fresh ln peer theirPubKey amount fee).FundingTransaction =
      env.EncodeTransaction (CreateChannel.fundingTx env ln peer theirPubKey amount fee) ∧
    ((CreateChannel env fresh ln peer theirPubKey amount fee).1.channelOf peer).map
      (fun c => c.FundingTransaction) =
      some (some (env.DecodeTransaction resp.SignedFundingTransaction)) := by
  rw [CreateChannel_answered env fresh ln peer theirPubKey amount fee resp hrpc]
  refine ⟨rfl, rfl, ?_⟩
  rw [alloc_channelOf ln _ peer
    (CreateChannel.opened env fresh ln peer theirPubKey amount fee resp) rfl rfl]
  rfl

/-- C16, witness: the amended statement for `CreateChannel` towards peer 8 on
`demoEmpty`. -/
theorem C16_broadcast_of_local_funding_witness :
    demoEnv.OpenChannelRPC 8 (CreateChannel.request demoEnv demoID demoEmpty 8 [3] 1000 10) =
      .ok
        { PublicKey := [3]
          SignedFundingTransaction :=
            { Body := [12], Outputs := [{ Amount := 1020, LockingScript := [0] }],
              Witnesses := [[9]] }
          SignedRefundTransaction :=
            { Body := [12, 6], Outputs := [{ Amount := 10, LockingScript := [1] }],
              Witnesses := [[9]] } } ∧
    (CreateChannel demoEnv demoID demoEmpty 8 [3] 1000 10).1.BroadcastTransaction =
      [{ Body := [12], Outputs := [{ Amount := 1020, LockingScript := [0] }],
         Witnesses := [[8]] }] ∧
    (CreateChannel.request demoEnv demoID demoEmpty 8 [3] 1000 10).FundingTransaction =
      { Body := [12], Outputs := [{ Amount := 1020, LockingScript := [0] }],
        Witnesses := [] } ∧
    ((CreateChannel demoEnv demoID demoEmpty 8 [3] 1000 10).1.channelOf 8).map
      (fun c => c.FundingTransaction) =
      some (some { Body := [12], Outputs := [{ Amount := 1020, LockingScript := [0] }],
                   Witnesses := [[9]] }) :=
  ⟨rfl,
    C16_broadcast_of_local_funding demoEnv demoID demoEmpty 8 [3] 1000 10
      { PublicKey := [3]
        SignedFundingTransaction :=
          { Body := [12], Outputs := [{ Amount := 1020, LockingScript := [0] }],
            Witnesses := [[9]] }
        SignedRefundTransaction :=
          { Body := [12, 6], Outputs := [{ Amount := 10, LockingScript := [1] }],
            Witnesses := [[9]] } }
      rfl⟩

/-! ## C17: the fee of the funding transaction -/

/-- C17, counterexample: the wallet of the concrete ledger builds a funding
output of `Amount + Fee` of its request. For the `uint32` fee `2 ^ 31`,
`CreateChannel` succeeds and broadcasts a funding transaction with the output
`1000 = amount + 0`: the `Fee` of the wallet request is `0`, smaller than the
fee, and `CreateChannel` proceeds as with a wallet that answers requests of
`Fee = 0` only. For the fee `10` the output is `1020 = amount + 2 × 10`. -/
theorem C17_counterexample :
    (2147483648 : Nat) < 2 ^ 32 ∧
    (CreateChannel demoEnv demoID demoEmpty 8 [3] 1000 2147483648).2 = Reply.ok () ∧
    (CreateChannel demoEnv demoID demoEmpty 8 [3] 1000 2147483648).1.BroadcastTransaction.map
      (fun t => t.Outputs.map (fun o => o.Amount)) = [[1000]] ∧
    (CreateChannel { demoEnv with generateFundingTransaction := demoWalletAt 0 }
        demoID demoEmpty 8 [3] 1000 2147483648).1.BroadcastTransaction.map
      (fun t => t.Outputs.map (fun o => o.Amount)) = [[1000]] ∧
    (CreateChannel { demoEnv with generateFundingTransaction := demoWalletAt 4294967296 }
        demoID demoEmpty 8 [3] 1000 2147483648).1.BroadcastTransaction.map
      (fun t => t.Outputs.map (fun o => o.Amount)) = [[]] ∧
    (CreateChannel demoEnv demoID demoEmpty 8 [3] 1000 10).1.BroadcastTransaction.map
      (fun t => t.Outputs.map (fun o => o.Amount)) = [[1020]] := by
  decide

/-- C17, amended: for every fee, `CreateChannel` has the funding transaction
generated from the wallet request with the given amount and counterparty key
and `Fee = 2 × fee` modulo `2 ^ 32`, and from no other request: a wallet `g`
that agrees with the wallet of the node at that one request gives the same
node and the same outcome, and a successful `CreateChannel` broadcasts the
wallet's answer to that request with one signature appended. The refund
construction is consulted with the funding transaction, `fee` itself and the
generated public key only. For every fee below `2 ^ 31` the same holds with
`Fee = 2 × fee` as an integer, which is then not smaller than the fee. -/
theorem C17_fee_doubling (env : Collaborators) (fresh : SimpleID) (ln : LightningNode)
    (peer : Peer) (theirPubKey : Bytes) (amount fee : Nat)
    (g : LightningNode → WalletRequest → Transaction)
    (g2 : LightningNode → Bytes → Transaction → Nat → Bytes → Transaction) :
    (g (CreateChannel.registered ln peer theirPubKey)
          { Amount := amount, Fee := (2 * fee) % 2 ^ 32, CounterPartyPubKey := theirPubKey }
        = env.generateFundingTransaction (CreateChannel.registered ln peer theirPubKey)
          { Amount := amount, Fee := (2 * fee) % 2 ^ 32, CounterPartyPubKey := theirPubKey } →
      CreateChannel { env with generateFundingTransaction := g } fresh ln peer theirPubKey
          amount fee
        = CreateChannel env fresh ln peer theirPubKey amount fee) ∧
    ((CreateChannel env fresh ln peer theirPubKey amount fee).2 = .ok () →
      ∃ sig : Bytes,
        (CreateChannel env fresh ln peer theirPubKey amount fee).1.BroadcastTransaction
          = ln.BroadcastTransaction ++
            [{ env.generateFundingTransaction (CreateChannel.registered ln peer theirPubKey)
                { Amount := amount, Fee := (2 * fee) % 2 ^ 32,
                  CounterPartyPubKey := theirPubKey } with
               Witnesses :=
                (env.generateFundingTransaction (CreateChannel.registered ln peer theirPubKey)
                  { Amount := amount, Fee := (2 * fee) % 2 ^ 32,
                    CounterPartyPubKey := theirPubKey }).Witnesses ++ [sig] }]) ∧
    (g2 (CreateChannel.registered ln peer theirPubKey) theirPubKey
          (env.generateFundingTransaction (CreateChannel.registered ln peer theirPubKey)
            { Amount := amount, Fee := (2 * fee) % 2 ^ 32, CounterPartyPubKey := theirPubKey })
          fee fresh.PublicKeyBytes
        = env.generateRefundTransaction (CreateChannel.registered ln peer theirPubKey)
          theirPubKey
          (env.generateFundingTransaction (CreateChannel.registered ln peer theirPubKey)
            { Amount := amount, Fee := (2 * fee) % 2 ^ 32, CounterPartyPubKey := theirPubKey })
          fee fresh.PublicKeyBytes →
      CreateChannel { env with generateRefundTransaction := g2 } fresh ln peer theirPubKey
          amount fee
        = CreateChannel env fresh ln peer theirPubKey amount fee) ∧
    (fee < 2 ^ 31 →
      (g (CreateChannel.registered ln peer theirPubKey)
            { Amount := amount, Fee := 2 * fee, CounterPartyPubKey := theirPubKey }
          = env.generateFundingTransaction (CreateChannel.registered ln peer theirPubKey)
            { Amount := amount, Fee := 2 * fee, CounterPartyPubKey := theirPubKey } →
        CreateChannel { env with generateFundingTransaction := g } fresh ln peer theirPubKey
            amount fee
          = CreateChannel env fresh ln peer theirPubKey amount fee) ∧
      ((CreateChannel env fresh ln peer theirPubKey amount fee).2 = .ok () →
        ∃ sig : Bytes,
          (CreateChannel env fresh ln peer theirPubKey amount fee).1.BroadcastTransaction
            = ln.BroadcastTransaction ++
              [{ env.generateFundingTransaction (CreateChannel.registered ln peer theirPubKey)
                  { Amount := amount, Fee := 2 * fee, CounterPartyPubKey := theirPubKey } with
                 Witnesses :=
                  (env.generateFundingTransaction
                    (CreateChannel.registered ln peer theirPubKey)
                    { Amount := amount, Fee := 2 * fee,
                      CounterPartyPubKey := theirPubKey }).Witnesses ++ [sig] }]) ∧
      (2 * fee) % 2 ^ 32 = 2 * fee ∧ fee ≤ (2 * fee) % 2 ^ 32) := by
  have e : fee * 2 = 2 * fee := Nat.mul_comm _ _
  have hA : g (CreateChannel.registered ln peer theirPubKey)
          { Amount := amount, Fee := (2 * fee) % 2 ^ 32, CounterPartyPubKey := theirPubKey }
        = env.generateFundingTransaction (CreateChannel.registered ln peer theirPubKey)
          { Amount := amount, Fee := (2 * fee) % 2 ^ 32, CounterPartyPubKey := theirPubKey } →
      CreateChannel { env with generateFundingTransaction := g } fresh ln peer theirPubKey
          amount fee
        = CreateChannel env fresh ln peer theirPubKey amount fee := by
    intro h
    simp only [CreateChannel.registered] at h
    simp only [CreateChannel, e, h]
  have hB : (CreateChannel env fresh ln peer theirPubKey amount fee).2 = .ok () →
      ∃ sig : Bytes,
        (CreateChannel env fresh ln peer theirPubKey amount fee).1.BroadcastTransaction
          = ln.BroadcastTransaction ++
            [{ env.generateFundingTransaction (CreateChannel.registered ln peer theirPubKey)
                { Amount := amount, Fee := (2 * fee) % 2 ^ 32,
                  CounterPartyPubKey := theirPubKey } with
               Witnesses :=
                (env.generateFundingTransaction (CreateChannel.registered ln peer theirPubKey)
                  { Amount := amount, Fee := (2 * fee) % 2 ^ 32,
                    CounterPartyPubKey := theirPubKey }).Witnesses ++ [sig] }] := by
    intro hok
    generalize hres : CreateChannel env fresh ln peer theirPubKey amount fee = res at *
    unfold CreateChannel at hres
    simp only [] at hres
    split at hres
    · subst hres
      simp at hok
    · subst hres
      rw [← e]
      exact ⟨_, rfl⟩
  refine ⟨hA, hB, ?_, ?_⟩
  · intro h
    simp only [CreateChannel.registered, ← e] at h
    simp only [CreateChannel, GenerateRevocationKey, h]
  · intro hfee
    have h2 : (2 * fee) % 2 ^ 32 = 2 * fee := by omega
    rw [h2] at hA hB
    exact ⟨hA, hB, h2, by omega⟩

/-- C17, witness: on the empty node, the fee `10` with a wallet that
answers requests of `Fee = 20` only and a refund construction that answers
for the fee `10` only; and the fee `2 ^ 31` with a wallet that answers
requests of `Fee = 0` only. -/
theorem C17_fee_doubling_witness :
    (10 : Nat) < 2 ^ 31 ∧
    (CreateChannel demoEnv demoID demoEmpty 8 [3] 1000 10).2 = Reply.ok () ∧
    CreateChannel { demoEnv with generateFundingTransaction := demoWalletAt 20 }
        demoID demoEmpty 8 [3] 1000 10
      = CreateChannel demoEnv demoID demoEmpty 8 [3] 1000 10 ∧
    CreateChannel { demoEnv with generateRefundTransaction := demoRefundAt 10 }
        demoID demoEmpty 8 [3] 1000 10
      = CreateChannel demoEnv demoID demoEmpty 8 [3] 1000 10 ∧
    (∃ sig : Bytes,
      (CreateChannel demoEnv demoID demoEmpty 8 [3] 1000 10).1.BroadcastTransaction
        = demoEmpty.BroadcastTransaction ++
          [{ demoEnv.generateFundingTransaction (CreateChannel.registered demoEmpty 8 [3])
              { Amount := 1000, Fee := 2 * 10, CounterPartyPubKey := [3] } with
             Witnesses :=
              (demoEnv.generateFundingTransaction
                (CreateChannel.registered demoEmpty 8 [3])
                { Amount := 1000, Fee := 2 * 10,
                  CounterPartyPubKey := [3] }).Witnesses ++ [sig] }]) ∧
    CreateChannel { demoEnv with generateFundingTransaction := demoWalletAt 0 }
        demoID demoEmpty 8 [3] 1000 2147483648
      = CreateChannel demoEnv demoID demoEmpty 8 [3] 1000 2147483648 := by
  have h := C17_fee_doubling demoEnv demoID demoEmpty 8 [3] 1000 10 (demoWalletAt 20)
    (demoRefundAt 10)
  have h0 := C17_fee_doubling demoEnv demoID demoEmpty 8 [3] 1000 2147483648 (demoWalletAt 0)
    (demoRefundAt 10)
  have h3 := h.2.2.2 (by decide)
  exact ⟨by decide, by decide, h3.1 (by decide), h.2.2.1 (by decide), h3.2.1 (by decide),
    h0.1 (by decide)⟩

/-! ## C18: transactions with too few outputs -/

/-- C18, evaluation at the failing inputs: on `demoNode`, a reveal request of
peer 7 whose transaction has no output makes `GetRevocationKey` abort on
`Outputs[0]`; on the funder node, a request whose transaction has one output
makes it abort on `Outputs[1]`. In both cases the transaction has been
appended to `MyTransactions` before. -/
theorem C18_GetRevocationKey_aborts :
    (demoNode false).channelOf 7 = some (demoChannel false) ∧
    (GetRevocationKey demoEnv (demoNode false) demoNoOutput).2
      = Reply.abort "index out of range" ∧
    (demoNode true).channelOf 7 = some (demoChannel true) ∧
    (GetRevocationKey demoEnv (demoNode true) demoOneOutput).2
      = Reply.abort "index out of range" ∧
    ((GetRevocationKey demoEnv (demoNode true) demoOneOutput).1.channelOf 7).map
      (fun c => (c.MyTransactions.length, c.State)) = some (2, 0) := by
  decide

/-! ## Frames of the operations -/

theorem heapRel_refl {P : Channel → Channel → Prop} (hP : ∀ c, P c c)
    (ln : LightningNode) : HeapRel P ln ln :=
  fun _ c hc => ⟨c, hc, hP c⟩

theorem heapRel_peerDb {P : Channel → Channel → Prop} (hP : ∀ c, P c c)
    (ln : LightningNode) (db : List (String × Peer)) :
    HeapRel P ln { ln with PeerDb := db } :=
  fun _ c hc => ⟨c, hc, hP c⟩

theorem heapRel_store {P : Channel → Channel → Prop} (hP : ∀ c, P c c)
    {ln : LightningNode} {r : ChannelRef} {c : Channel} (d : Channel)
    (hc : ln.Heap[r]? = some c) (hcd : P c d) : HeapRel P ln (ln.store r d) := by
  intro r0 c0 h0
  by_cases hr : r = r0
  · subst hr
    have hcc : c0 = c := by simpa [hc] using h0.symm
    subst hcc
    exact ⟨d, heap_set_same d hc, hcd⟩
  · exact ⟨c0, by simpa [List.getElem?_set, hr] using h0, hP c0⟩

theorem heapRel_alloc {P : Channel → Channel → Prop} (hP : ∀ c, P c c)
    (ln : LightningNode) (m : List (Peer × ChannelRef)) (d : Channel)
    (b : List Transaction) :
    HeapRel P ln
      { ln with Channels := m, Heap := ln.Heap ++ [d], BroadcastTransaction := b } :=
  fun _ c0 h0 => ⟨c0, heap_append_old d h0, hP c0⟩

theorem newObjects_same (Q : Channel → Prop) (ln : LightningNode) : NewObjects Q ln ln :=
  fun _ _ h1 h2 => absurd (h2 ▸ h1 : none = some _) (by simp)

theorem newObjects_store (Q : Channel → Prop) {ln : LightningNode} {r : ChannelRef}
    {c : Channel} (d : Channel) (hc : ln.Heap[r]? = some c) :
    NewObjects Q ln (ln.store r d) := by
  intro r0 d0 h0 hn
  by_cases hr : r = r0
  · subst hr
    simp [hc] at hn
  · simp [List.getElem?_set, hr, hn] at h0

theorem newObjects_alloc {Q : Channel → Prop} (ln : LightningNode)
    (m : List (Peer × ChannelRef)) (d : Channel) (b : List Transaction) (hd : Q d) :
    NewObjects Q ln
      { ln with Channels := m, Heap := ln.Heap ++ [d], BroadcastTransaction := b } := by
  intro r0 d0 h0 hn
  have hle := List.getElem?_eq_none_iff.1 hn
  simp only [List.getElem?_append_right hle] at h0
  rcases Nat.eq_zero_or_pos (r0 - ln.Heap.length) with hz | hz
  · simp [hz] at h0
    exact h0 ▸ hd
  · obtain ⟨k, hk⟩ := Nat.exists_eq_succ_of_ne_zero (Nat.pos_iff_ne_zero.1 hz)
    simp [hk] at h0

theorem frame_refl (issued : Option Bytes) (c : Channel) : Frame issued c c :=
  ⟨rfl, Or.inl rfl⟩

theorem UpdateState_frame (env : Collaborators) (ln : LightningNode) (peer : Peer)
    (tx : Transaction) : HeapRel (Frame none) ln (UpdateState env ln peer tx).1 := by
  generalize hres : UpdateState env ln peer tx = res at *
  unfold UpdateState at hres
  simp only [] at hres
  repeat' (split at hres)
  all_goals subst hres
  all_goals simp only [store_store]
  all_goals first
    | exact heapRel_refl (frame_refl none) ln
    | (apply heapRel_store (frame_refl none)
       · assumption
       · exact ⟨rfl, Or.inl rfl⟩)

theorem GetRevocationKey_frame (env : Collaborators) (ln : LightningNode)
    (req : SignedTransactionWithKey) :
    HeapRel (Frame none) ln (GetRevocationKey env ln req).1 := by
  generalize hres : GetRevocationKey env ln req = res at *
  unfold GetRevocationKey at hres
  simp only [] at hres
  repeat' (split at hres)
  all_goals subst hres
  all_goals simp only [store_store]
  all_goals first
    | exact heapRel_refl (frame_refl none) ln
    | (apply heapRel_store (frame_refl none)
       · assumption
       · exact ⟨rfl, Or.inl rfl⟩)

theorem GetUpdatedTransactions_frame (env : Collaborators) (fresh : SimpleID)
    (ln : LightningNode) (req : TransactionWithAddress) :
    HeapRel (Frame (some fresh.PrivateKeyBytes)) ln
      (GetUpdatedTransactions env fresh ln req).1 := by
  generalize hres : GetUpdatedTransactions env fresh ln req = res at *
  unfold GetUpdatedTransactions at hres
  simp only [] at hres
  repeat' (split at hres)
  all_goals subst hres
  all_goals first
    | exact heapRel_refl (frame_refl _) ln
    | (apply heapRel_store (frame_refl _)
       · assumption
       · exact ⟨rfl, Or.inr ⟨_, _, rfl, rfl⟩⟩)

theorem OpenChannel_frame (env : Collaborators) (fresh : SimpleID) (ln : LightningNode)
    (req : OpenChannelRequest) : HeapRel (Frame none) ln (OpenChannel env fresh ln req).1 := by
  generalize hres : OpenChannel env fresh ln req = res at *
  unfold OpenChannel at hres
  simp only [] at hres
  repeat' (split at hres)
  all_goals subst hres
  all_goals first
    | exact heapRel_refl (frame_refl none) ln
    | exact heapRel_alloc (frame_refl none) ln _ _ _

theorem CreateChannel_frame (env : Collaborators) (fresh : SimpleID) (ln : LightningNode)
    (peer : Peer) (theirPubKey : Bytes) (amount fee : Nat) :
    HeapRel (Frame none) ln (CreateChannel env fresh ln peer theirPubKey amount fee).1 := by
  generalize hres : CreateChannel env fresh ln peer theirPubKey amount fee = res at *
  unfold CreateChannel at hres
  simp only [] at hres
  repeat' (split at hres)
  all_goals subst hres
  all_goals simp only [store_store]
  all_goals simp only [LightningNode.store, heap_append_set]
  all_goals exact heapRel_alloc (frame_refl none) ln _ _ _

theorem CreateChannel_Channels (env : Collaborators) (fresh : SimpleID)
    (ln : LightningNode) (peer : Peer) (theirPubKey : Bytes) (amount fee : Nat) :
    (CreateChannel env fresh ln peer theirPubKey amount fee).1.Channels
      = mapSet ln.Channels peer ln.Heap.length := by
  generalize hres : CreateChannel env fresh ln peer theirPubKey amount fee = res at *
  unfold CreateChannel at hres
  simp only [] at hres
  repeat' (split at hres)
  all_goals subst hres
  all_goals rfl

theorem heapRel_channelOf {P : Channel → Channel → Prop} {ln ln2 : LightningNode}
    (hrel : HeapRel P ln ln2) {p : Peer} {r : ChannelRef} {c : Channel}
    (hm : mapGet ln2.Channels p = some r) (hc : ln.Heap[r]? = some c) :
    ∃ d, ln2.channelOf p = some d ∧ P c d := by
  obtain ⟨d, hd, hP⟩ := hrel r c hc
  exact ⟨d, by simp only [LightningNode.channelOf, hm, hd], hP⟩

/-! ## C13: the funding transaction -/

/-- C13, counterexample: in `demoNode` the channel recorded for peer 7 has
the funding transaction with body `[7]`; after `CreateChannel` towards peer 7
the funding transaction recorded for that peer is the one with body
`[12]`. -/
theorem C13_counterexample :
    ((demoNode false).channelOf 7).map (fun c => c.FundingTransaction.map (fun t => t.Body))
      = some (some [7]) ∧
    ((CreateChannel demoEnv demoID (demoNode false) 7 [3] 1000 10).1.channelOf 7).map
      (fun c => c.FundingTransaction.map (fun t => t.Body)) = some (some [12]) := by
  decide

/-- C13, amended: when the channel recorded for peer `p` has the funding
transaction `f`, then `UpdateState`, `OpenChannel`, `GetUpdatedTransactions`
and `GetRevocationKey` with any arguments, and `CreateChannel` towards any
other peer `q`, leave `f` as the funding transaction recorded for `p`; and
`CreateChannel` towards any peer leaves `f` on the channel object that was
recorded for `p`. -/
theorem C13_funding_write_once (env : Collaborators) (fresh : SimpleID)
    (ln : LightningNode) (p : Peer) (r : ChannelRef) (c : Channel) (f : Transaction)
    (q p1 : Peer) (theirPubKey : Bytes) (amount fee : Nat) (p2 : Peer) (tx2 : Transaction)
    (req3 : OpenChannelRequest) (req4 : TransactionWithAddress)
    (req5 : SignedTransactionWithKey)
    (hr : mapGet ln.Channels p = some r) (hc : ln.Heap[r]? = some c)
    (hf : FundedBy f c) (hq : q ≠ p) :
    onChannel (FundedBy f) ((UpdateState env ln p2 tx2).1.channelOf p) ∧
    onChannel (FundedBy f) ((OpenChannel env fresh ln req3).1.channelOf p) ∧
    onChannel (FundedBy f) ((GetUpdatedTransactions env fresh ln req4).1.channelOf p) ∧
    onChannel (FundedBy f) ((GetRevocationKey env ln req5).1.channelOf p) ∧
    onChannel (FundedBy f)
      ((CreateChannel env fresh ln q theirPubKey amount fee).1.channelOf p) ∧
    onChannel (FundedBy f)
      ((CreateChannel env fresh ln p1 theirPubKey amount fee).1.Heap[r]?) := by
  refine ⟨?_, ?_, ?_, ?_, ?_, ?_⟩
  · obtain ⟨d, hd, hfd, -⟩ := heapRel_channelOf (UpdateState_frame env ln p2 tx2)
      (by rw [UpdateState_Channels]; exact hr) hc
    exact onChannel_some hd (hfd.trans hf)
  · obtain ⟨d, hd, hfd, -⟩ := heapRel_channelOf (OpenChannel_frame env fresh ln req3)
      (OpenChannel_Channels env fresh ln req3 p r hr) hc
    exact onChannel_some hd (hfd.trans hf)
  · obtain ⟨d, hd, hfd, -⟩ :=
      heapRel_channelOf (GetUpdatedTransactions_frame env fresh ln req4)
        (by rw [GetUpdatedTransactions_Channels]; exact hr) hc
    exact onChannel_some hd (hfd.trans hf)
  · obtain ⟨d, hd, hfd, -⟩ := heapRel_channelOf (GetRevocationKey_frame env ln req5)
      (by rw [GetRevocationKey_Channels]; exact hr) hc
    exact onChannel_some hd (hfd.trans hf)
  · have hp : p ≠ q := fun h => hq h.symm
    obtain ⟨d, hd, hfd, -⟩ :=
      heapRel_channelOf (CreateChannel_frame env fresh ln q theirPubKey amount fee)
        (by rw [CreateChannel_Channels, mapGet_mapSet_other _ _ _ _ hp]; exact hr) hc
    exact onChannel_some hd (hfd.trans hf)
  · obtain ⟨d, hd, hfd, -⟩ :=
      CreateChannel_frame env fresh ln p1 theirPubKey amount fee r c hc
    exact onChannel_some hd (hfd.trans hf)

/-- C13, witness: the channel of peer 7 in `demoNode`; `CreateChannel` goes
towards peer 8 and, for the object, towards peer 7. -/
theorem C13_funding_write_once_witness :
    FundedBy { Body := [7], Outputs := [], Witnesses := [[9]] } (demoChannel false) ∧
    onChannel (FundedBy { Body := [7], Outputs := [], Witnesses := [[9]] })
      ((UpdateState demoEnv (demoNode false) 7 demoRefund).1.channelOf 7) ∧
    onChannel (FundedBy { Body := [7], Outputs := [], Witnesses := [[9]] })
      ((CreateChannel demoEnv demoID (demoNode false) 8 [3] 1000 10).1.channelOf 7) ∧
    onChannel (FundedBy { Body := [7], Outputs := [], Witnesses := [[9]] })
      ((CreateChannel demoEnv demoID (demoNode false) 7 [3] 1000 10).1.Heap[0]?) := by
  have h := C13_funding_write_once demoEnv demoID (demoNode false) 7 0 (demoChannel false)
    { Body := [7], Outputs := [], Witnesses := [[9]] } 8 7 [3] 1000 10 7 demoRefund demoOpen
    demoProposal demoReveal (by decide) (by decide) (by decide) (by decide)
  exact ⟨by decide, h.1, h.2.2.2.2.1, h.2.2.2.2.2⟩

/-! ## C12: keys in `MyRevocationKeys` -/

theorem registry_of_nil (H : Transaction → String) (c : Channel)
    (h : c.TheirRevocationKeys = []) : RegistryConsistent H c := by
  intro e he
  simp [h] at he

theorem registry_grow {H : Transaction → String} {c d : Channel}
    (hk : d.TheirRevocationKeys = c.TheirRevocationKeys)
    (hsub : ∀ t, t ∈ c.MyTransactions ++ c.TheirTransactions →
      t ∈ d.MyTransactions ++ d.TheirTransactions) :
    RegistryConsistent H c → RegistryConsistent H d := by
  intro hc e he
  rw [hk] at he
  obtain ⟨h1, t, ht, h2, h3⟩ := hc e he
  exact ⟨h1, t, hsub t ht, h2, h3⟩

theorem registry_reveal {H : Transaction → String} {c d : Channel} (k : Bytes)
    (info : RevocationInfo) (t : Transaction)
    (hk : d.TheirRevocationKeys = mapSet c.TheirRevocationKeys k info)
    (hkey : k = info.RevKey)
    (hsub : ∀ t, t ∈ c.MyTransactions ++ c.TheirTransactions →
      t ∈ d.MyTransactions ++ d.TheirTransactions)
    (hh : H t = info.TransactionHash)
    (ho : t.Outputs[info.OutputIndex]? = some info.TransactionOutput)
    (ht : t ∈ d.MyTransactions ++ d.TheirTransactions) :
    RegistryConsistent H c → RegistryConsistent H d := by
  intro hc e he
  rw [hk] at he
  rcases mem_mapSet _ _ _ _ he with h | h
  · obtain ⟨h1, t0, ht0, h2, h3⟩ := hc e h
    exact ⟨h1, t0, hsub t0 ht0, h2, h3⟩
  · subst h
    exact ⟨hkey, t, ht, hh, ho⟩

theorem UpdateState_registry (env : Collaborators) (ln : LightningNode) (peer : Peer)
    (tx : Transaction) :
    HeapRel (fun c d => RegistryConsistent env.Hash c → RegistryConsistent env.Hash d) ln
      (UpdateState env ln peer tx).1 := by
  generalize hres : UpdateState env ln peer tx = res at *
  unfold UpdateState at hres
  simp only [] at hres
  repeat' (split at hres)
  all_goals subst hres
  all_goals simp only [store_store]
  all_goals first
    | exact heapRel_refl (fun _ h => h) ln
    | (apply heapRel_store (fun _ h => h)
       · assumption
       · first
         | exact registry_grow rfl
             (by intro t; simp only [List.mem_append, List.mem_singleton]; tauto)
         | (apply registry_reveal
            · exact rfl
            · exact rfl
            · intro t
              simp only [List.mem_append, List.mem_singleton]
              tauto
            · exact rfl
            · assumption
            · simp))

theorem GetRevocationKey_registry (env : Collaborators) (ln : LightningNode)
    (req : SignedTransactionWithKey) :
    HeapRel (fun c d => RegistryConsistent env.Hash c → RegistryConsistent env.Hash d) ln
      (GetRevocationKey env ln req).1 := by
  generalize hres : GetRevocationKey env ln req = res at *
  unfold GetRevocationKey at hres
  simp only [] at hres
  repeat' (split at hres)
  all_goals subst hres
  all_goals simp only [store_store]
  all_goals first
    | exact heapRel_refl (fun _ h => h) ln
    | (apply heapRel_store (fun _ h => h)
       · assumption
       · first
         | exact registry_grow rfl
             (by intro t; simp only [List.mem_append, List.mem_singleton]; tauto)
         | (apply registry_reveal
            · exact rfl
            · exact rfl
            · intro t
              simp only [List.mem_append, List.mem_singleton]
              tauto
            · exact rfl
            · assumption
            · simp))

theorem GetUpdatedTransactions_registry (env : Collaborators) (fresh : SimpleID)
    (ln : LightningNode) (req : TransactionWithAddress) :
    HeapRel (fun c d => RegistryConsistent env.Hash c → RegistryConsistent env.Hash d) ln
      (GetUpdatedTransactions env fresh ln req).1 := by
  generalize hres : GetUpdatedTransactions env fresh ln req = res at *
  unfold GetUpdatedTransactions at hres
  simp only [] at hres
  repeat' (split at hres)
  all_goals subst hres
  all_goals first
    | exact heapRel_refl (fun _ h => h) ln
    | (apply heapRel_store (fun _ h => h)
       · assumption
       · exact registry_grow rfl
           (by intro t; simp only [List.mem_append, List.mem_singleton]; tauto))

theorem UpdateState_newObjects (Q : Channel → Prop) (env : Collaborators)
    (ln : LightningNode) (peer : Peer) (tx : Transaction) :
    NewObjects Q ln (UpdateState env ln peer tx).1 := by
  generalize hres : UpdateState env ln peer tx = res at *
  unfold UpdateState at hres
  simp only [] at hres
  repeat' (split at hres)
  all_goals subst hres
  all_goals simp only [store_store]
  all_goals first
    | exact newObjects_same Q ln
    | (apply newObjects_store Q
       assumption)

theorem GetRevocationKey_newObjects (Q : Channel → Prop) (env : Collaborators)
    (ln : LightningNode) (req : SignedTransactionWithKey) :
    NewObjects Q ln (GetRevocationKey env ln req).1 := by
  generalize hres : GetRevocationKey env ln req = res at *
  unfold GetRevocationKey at hres
  simp only [] at hres
  repeat' (split at hres)
  all_goals subst hres
  all_goals simp only [store_store]
  all_goals first
    | exact newObjects_same Q ln
    | (apply newObjects_store Q
       assumption)

theorem GetUpdatedTransactions_newObjects (Q : Channel → Prop) (env : Collaborators)
    (fresh : SimpleID) (ln : LightningNode) (req : TransactionWithAddress) :
    NewObjects Q ln (GetUpdatedTransactions env fresh ln req).1 := by
  generalize hres : GetUpdatedTransactions env fresh ln req = res at *
  unfold GetUpdatedTransactions at hres
  simp only [] at hres
  repeat' (split at hres)
  all_goals subst hres
  all_goals first
    | exact newObjects_same Q ln
    | (apply newObjects_store Q
       assumption)

theorem OpenChannel_newObjects (env : Collaborators) (fresh : SimpleID)
    (ln : LightningNode) (req : OpenChannelRequest) :
    NewObjects (fun d => d.TheirRevocationKeys = []) ln (OpenChannel env fresh ln req).1 := by
  generalize hres : OpenChannel env fresh ln req = res at *
  unfold OpenChannel at hres
  simp only [] at hres
  repeat' (split at hres)
  all_goals subst hres
  all_goals first
    | exact newObjects_same _ ln
    | exact newObjects_alloc ln _ _ _ rfl

theorem CreateChannel_newObjects (env : Collaborators) (fresh : SimpleID)
    (ln : LightningNode) (peer : Peer) (theirPubKey : Bytes) (amount fee : Nat) :
    NewObjects (fun d => d.TheirRevocationKeys = []) ln
      (CreateChannel env fresh ln peer theirPubKey amount fee).1 := by
  generalize hres : CreateChannel env fresh ln peer theirPubKey amount fee = res at *
  unfold CreateChannel at hres
  simp only [] at hres
  repeat' (split at hres)
  all_goals subst hres
  all_goals simp only [store_store]
  all_goals simp only [LightningNode.store, heap_append_set]
  all_goals exact newObjects_alloc ln _ _ _ rfl

theorem OpenChannel_unchanged {P : Channel → Channel → Prop} (hP : ∀ c, P c c)
    (env : Collaborators) (fresh : SimpleID) (ln : LightningNode)
    (req : OpenChannelRequest) : HeapRel P ln (OpenChannel env fresh ln req).1 := by
  generalize hres : OpenChannel env fresh ln req = res at *
  unfold OpenChannel at hres
  simp only [] at hres
  repeat' (split at hres)
  all_goals subst hres
  all_goals first
    | exact heapRel_refl hP ln
    | exact heapRel_alloc hP ln _ _ _

theorem CreateChannel_unchanged {P : Channel → Channel → Prop} (hP : ∀ c, P c c)
    (env : Collaborators) (fresh : SimpleID) (ln : LightningNode) (peer : Peer)
    (theirPubKey : Bytes) (amount fee : Nat) :
    HeapRel P ln (CreateChannel env fresh ln peer theirPubKey amount fee).1 := by
  generalize hres : CreateChannel env fresh ln peer theirPubKey amount fee = res at *
  unfold CreateChannel at hres
  simp only [] at hres
  repeat' (split at hres)
  all_goals subst hres
  all_goals simp only [store_store]
  all_goals simp only [LightningNode.store, heap_append_set]
  all_goals exact heapRel_alloc hP ln _ _ _

theorem stepUnder_registry {H : Transaction → String} {ln ln2 : LightningNode}
    (s : StepUnder H ln ln2) :
    HeapRel (fun c d => RegistryConsistent H c → RegistryConsistent H d) ln ln2 ∧
    NewObjects (fun d => d.TheirRevocationKeys = []) ln ln2 := by
  cases s with
  | createChannel env henv fresh _ peer key amount fee =>
    exact ⟨CreateChannel_unchanged (fun _ h => h) env fresh ln peer key amount fee,
      CreateChannel_newObjects env fresh ln peer key amount fee⟩
  | openChannel env henv fresh _ req =>
    exact ⟨OpenChannel_unchanged (fun _ h => h) env fresh ln req,
      OpenChannel_newObjects env fresh ln req⟩
  | updateState env henv _ peer tx =>
    subst henv
    exact ⟨UpdateState_registry env ln peer tx, UpdateState_newObjects _ env ln peer tx⟩
  | getUpdatedTransactions env henv fresh _ req =>
    subst henv
    exact ⟨GetUpdatedTransactions_registry env fresh ln req,
      GetUpdatedTransactions_newObjects _ env fresh ln req⟩
  | getRevocationKey env henv _ req =>
    subst henv
    exact ⟨GetRevocationKey_registry env ln req, GetRevocationKey_newObjects _ env ln req⟩
  | version _ db =>
    exact ⟨heapRel_peerDb (fun _ h => h) ln db,
      fun _ _ h1 h2 => absurd (h2 ▸ h1 : none = some _) (by simp)⟩

theorem reachableUnder_registry {H : Transaction → String} {ln : LightningNode}
    (h : ReachableUnder H ln) :
    ∀ (r : ChannelRef) (c : Channel), ln.Heap[r]? = some c → RegistryConsistent H c := by
  induction h with
  | init ln0 _ hh =>
    intro r c hc
    simp [hh] at hc
  | @step l1 l2 _ s ih =>
    intro r c hc
    obtain ⟨hrel, hnew⟩ := stepUnder_registry s
    cases hold : l1.Heap[r]? with
    | none => exact registry_of_nil H c (hnew r c hc hold)
    | some c0 =>
      obtain ⟨d, hd, hcd⟩ := hrel r c0 hold
      have hdc : d = c := by simpa [hd] using hc
      subst hdc
      exact hcd (ih r c0 hold)

/-- C19: let `H` be the hash function of the ledger. In every node reachable
from a node without channels by calls of `CreateChannel`, `OpenChannel`,
`UpdateState`, `GetUpdatedTransactions` and `GetRevocationKey`, every entry
`(k, info)` of `TheirRevocationKeys` of a channel satisfies
`k = string(info.RevKey)`, and a transaction of the channel (the one the entry
was made for) has the hash `info.TransactionHash` and has
`info.TransactionOutput` as its output at position `info.OutputIndex`. -/
theorem C19_registry_consistency (H : Transaction → String) (ln : LightningNode)
    (r : ChannelRef) (c : Channel)
    (hreach : ReachableUnder H ln) (hc : ln.Heap[r]? = some c) :
    RegistryConsistent H c :=
  reachableUnder_registry hreach r c hc

/-- C19, witness: `demoServed` is reached under the hash of the concrete
ledger; its channel holds one entry. -/
theorem C19_registry_consistency_witness :
    ReachableUnder demoHash demoServed ∧
    demoServed.Heap[0]? = some demoServedChannel ∧
    demoServedChannel.TheirRevocationKeys.map
      (fun e => (e.1, e.2.RevKey, e.2.TransactionHash)) = [([5], [5], "bgde")] ∧
    RegistryConsistent demoHash demoServedChannel :=
  have hreach : ReachableUnder demoHash demoServed :=
    ReachableUnder.step
      (ReachableUnder.step
        (ReachableUnder.step (ReachableUnder.init demoEmpty rfl rfl)
          (StepUnder.openChannel demoEnv rfl demoID0 demoEmpty demoOpen))
        (StepUnder.getUpdatedTransactions demoEnv rfl demoID _ _))
      (StepUnder.getRevocationKey demoEnv rfl _ _)
  ⟨hreach, by decide, by decide,
    C19_registry_consistency demoHash demoServed 0 demoServedChannel hreach (by decide)⟩

/-! ## C14: one round between two nodes -/

theorem rpcResult_ok {α : Type} {x : Reply α} {a : α} (h : rpcResult x = .ok a) :
    x = .ok a := by
  cases x <;> simp [rpcResult] at h
  exact congrArg Reply.ok h

theorem UpdateStateServed_initiator (env envR : Collaborators) (freshR : SimpleID)
    (ln lnR : LightningNode) (peer : Peer) (tx : Transaction) :
    ((UpdateStateServed env envR freshR ln lnR peer tx).1.1,
      (UpdateStateServed env envR freshR ln lnR peer tx).2) =
      UpdateState
        (servedBy env envR freshR lnR
          { Transaction := env.EncodeTransaction tx, Address := ln.Address })
        ln peer tx := by
  generalize hres : UpdateStateServed env envR freshR ln lnR peer tx = res at *
  unfold UpdateStateServed at hres
  simp only [] at hres
  repeat' (split at hres)
  all_goals subst hres
  all_goals simp only [UpdateState, servedBy, *]

/-- C14, counterexample: "alice" (`demoNode true`) and "bob" (`demoBob`) hold
a channel for each other at state 0 whose state-0 transaction has the hash
"abc" in all four histories; after the `UpdateState` of "alice", served by the
handlers of "bob", both channels are at state 1 and the one `RevocationInfo`
of each side has the `TransactionHash` "bgde", the hash of the new state-1
transaction (index 1 of `TheirTransactions` of "alice" and of `MyTransactions`
of "bob"). -/
theorem C14_counterexample :
    JustOpened (demoChannel true) ∧ JustOpened (demoChannel false) ∧
    (UpdateStateServed demoEnv demoEnv demoID (demoNode true) demoBob 7 demoProposed).2
      = Reply.ok () ∧
    ((UpdateStateServed demoEnv demoEnv demoID (demoNode true) demoBob 7
        demoProposed).1.1.channelOf 7).map
      (fun c =>
        (c.State, c.TheirRevocationKeys.map (fun e => e.2.TransactionHash),
          (c.MyTransactions ++ c.TheirTransactions).map demoHash))
      = some (1, ["bgde"], ["abc", "bde", "abc", "bgde"]) ∧
    ((UpdateStateServed demoEnv demoEnv demoID (demoNode true) demoBob 7
        demoProposed).1.2.channelOf 3).map
      (fun c =>
        (c.State, c.TheirRevocationKeys.map (fun e => e.2.TransactionHash),
          (c.MyTransactions ++ c.TheirTransactions).map demoHash))
      = some (1, ["bgde"], ["abc", "bgde", "abc", "bde"]) := by
  decide

theorem UpdateStateServed_responder (env envR : Collaborators) (freshR : SimpleID)
    (ln lnR : LightningNode) (peer : Peer) (tx : Transaction)
    (hok : (UpdateStateServed env envR freshR ln lnR peer tx).2 = .ok ()) :
    ∃ (rev : SignedTransactionWithKey) (resp : UpdatedTransactions) (key : RevocationKey),
      rev.Address = ln.Address ∧
      (GetUpdatedTransactions envR freshR lnR
        { Transaction := env.EncodeTransaction tx, Address := ln.Address }).2 = .ok resp ∧
      (GetRevocationKey envR
        (GetUpdatedTransactions envR freshR lnR
          { Transaction := env.EncodeTransaction tx, Address := ln.Address }).1 rev).2
        = .ok key ∧
      (UpdateStateServed env envR freshR ln lnR peer tx).1.2 =
        (GetRevocationKey envR
          (GetUpdatedTransactions envR freshR lnR
            { Transaction := env.EncodeTransaction tx, Address := ln.Address }).1 rev).1 := by
  generalize hres : UpdateStateServed env envR freshR ln lnR peer tx = res at *
  unfold UpdateStateServed at hres
  simp only [] at hres
  repeat' (split at hres)
  all_goals subst hres
  all_goals simp at hok
  rename_i _ updateTx h1 _ _ _ _ _ _ _ revKey h2 _ _ _ _ _ _ _ _ _
  exact ⟨_, updateTx, revKey, rfl, rpcResult_ok h1, rpcResult_ok h2, rfl⟩

theorem getElem?_one_of_append {α : Type} (l : List α) (x : α) (hl : l.length = 1) :
    (l ++ [x])[1]? = some x := by
  have h := List.getElem?_concat_length l x
  rwa [hl] at h

/-- C14, amended: two nodes hold a channel for each other at `State = 0` with
one transaction in each history and no revealed key. When the `UpdateState`
of the initiator, served by `GetUpdatedTransactions` and `GetRevocationKey` of
the responder, returns, both channels are at `State = 1`, and the one
`RevocationInfo` of each side carries the hash of the new state-1
transaction: on the initiator the transaction at index 1 of
`TheirTransactions`, on the responder the transaction at index 1 of
`MyTransactions`. -/
theorem C14_round_between_two_nodes (env envR : Collaborators) (freshR : SimpleID)
    (ln lnR : LightningNode) (peer peerI : Peer) (r rR : ChannelRef) (c cR : Channel)
    (tx : Transaction)
    (hr : mapGet ln.Channels peer = some r) (hc : ln.Heap[r]? = some c)
    (hopen : JustOpened c)
    (hpR : mapGet lnR.PeerDb ln.Address = some peerI)
    (hrR : mapGet lnR.Channels peerI = some rR) (hcR : lnR.Heap[rR]? = some cR)
    (hopenR : JustOpened cR)
    (hok : (UpdateStateServed env envR freshR ln lnR peer tx).2 = .ok ()) :
    onChannel (RevokesIndexOne env.Hash (fun d => d.TheirTransactions))
      ((UpdateStateServed env envR freshR ln lnR peer tx).1.1.Heap[r]?) ∧
    onChannel (RevokesIndexOne envR.Hash (fun d => d.MyTransactions))
      ((UpdateStateServed env envR freshR ln lnR peer tx).1.2.Heap[rR]?) := by
  obtain ⟨hs, hmy, hth, hk⟩ := hopen
  obtain ⟨hsR, hmyR, hthR, hkR⟩ := hopenR
  constructor
  · have hlink := UpdateStateServed_initiator env envR freshR ln lnR peer tx
    have h1 := congrArg Prod.fst hlink
    have h2 := congrArg Prod.snd hlink
    simp only [] at h1 h2
    rw [h2] at hok
    obtain ⟨s1, u1, o0, info, -, -, -, -, hhash, hres⟩ :=
      UpdateState_ok _ ln peer tx r c hr hc hok
    rw [h1, hres]
    refine onChannel_some (heap_set_same _ hc) ⟨?_, ?_, ?_⟩
    · show c.State + 1 = 1
      omega
    · show (c.TheirTransactions ++ [u1]).length = 2
      simp [hth]
    · show (mapSet c.TheirRevocationKeys info.RevKey info).map
          (fun e => some e.2.TransactionHash)
        = [((c.TheirTransactions ++ [u1])[1]?).map env.Hash]
      rw [hk, getElem?_one_of_append _ _ hth]
      show [some info.TransactionHash] = [some (env.Hash u1)]
      rw [hhash]
      rfl
  · obtain ⟨rev, resp, key, haddr, hok1, hok2, hres⟩ :=
      UpdateStateServed_responder env envR freshR ln lnR peer tx hok
    rw [hres]
    obtain ⟨tx1, -, hres1, -⟩ :=
      GetUpdatedTransactions_ok envR freshR lnR
        { Transaction := env.EncodeTransaction tx, Address := ln.Address } peerI rR cR resp
        hpR hrR hcR hok1
    rw [hres1] at hok2 ⊢
    generalize hc1 :
      ({ cR with
          TheirTransactions := cR.TheirTransactions ++ [tx1]
          MyRevocationKeys :=
            mapSet cR.MyRevocationKeys
              (envR.Hash (envR.generateTransactionWithCorrectScripts lnR peerI tx1
                freshR.PublicKeyBytes))
              freshR.PrivateKeyBytes } : Channel) = c1 at hok2 ⊢
    have hh1 : (lnR.store rR c1).Heap[rR]? = some c1 := heap_set_same c1 hcR
    have hp1 : mapGet (lnR.store rR c1).PeerDb rev.Address = some peerI := by
      rw [haddr]
      exact hpR
    obtain ⟨o0, st, o, -, -, -, hres2, -⟩ :=
      GetRevocationKey_ok envR (lnR.store rR c1) rev peerI rR c1 key hp1 hrR hh1 hok2
    rw [hres2]
    refine onChannel_some (heap_set_same _ hh1) ?_
    subst hc1
    refine ⟨?_, ?_, ?_⟩
    · show cR.State + 1 = 1
      omega
    · show (cR.MyTransactions ++ [envR.DecodeTransaction rev.SignedTransaction]).length = 2
      simp [hmyR]
    · show (mapSet cR.TheirRevocationKeys rev.RevocationKey _).map
          (fun e => some e.2.TransactionHash)
        = [((cR.MyTransactions ++ [envR.DecodeTransaction rev.SignedTransaction])[1]?).map
            envR.Hash]
      rw [hkR, getElem?_one_of_append _ _ hmyR]
      rfl

/-- C14, witness: the round between "alice" (`demoNode true`) and "bob"
(`demoBob`). -/
theorem C14_round_between_two_nodes_witness :
    JustOpened (demoChannel true) ∧ JustOpened (demoChannel false) ∧
    (UpdateStateServed demoEnv demoEnv demoID (demoNode true) demoBob 7 demoProposed).2
      = .ok () ∧
    onChannel (RevokesIndexOne demoEnv.Hash (fun d => d.TheirTransactions))
      ((UpdateStateServed demoEnv demoEnv demoID (demoNode true) demoBob 7
        demoProposed).1.1.Heap[0]?) ∧
    onChannel (RevokesIndexOne demoEnv.Hash (fun d => d.MyTransactions))
      ((UpdateStateServed demoEnv demoEnv demoID (demoNode true) demoBob 7
        demoProposed).1.2.Heap[0]?) :=
  ⟨by decide, by decide, by decide,
    C14_round_between_two_nodes demoEnv demoEnv demoID (demoNode true) demoBob 7 3 0 0
      (demoChannel true) (demoChannel false) demoProposed (by decide) (by decide) (by decide)
      (by decide) (by decide) (by decide) (by decide) (by decide)⟩

end Lightning
